import Mathlib

set_option maxRecDepth 20000

namespace SJT

/-!
Verification development for the SJT generation app (src/app.py).
Strings are modelled as `List Char`; Python string operations used by the app
(`str.replace`, `str.strip`, slicing, `re.split` on newlines) are embedded below.
-/

/-- Substring-as-prefix: `preOf p s` says `p` is a prefix of `s`. -/
def preOf (p s : List Char) : Prop := ∃ t, p ++ t = s

/-- Substring-as-suffix: `sufOf p s` says `p` is a suffix of `s`. -/
def sufOf (p s : List Char) : Prop := ∃ t, t ++ p = s

theorem prefixOf_iff {p s : List Char} : p.isPrefixOf s = true ↔ preOf p s := by
  induction p generalizing s with
  | nil => simp [List.isPrefixOf, preOf]
  | cons a p ih =>
    cases s with
    | nil =>
      simp [List.isPrefixOf, preOf]
    | cons b s =>
      simp only [List.isPrefixOf, Bool.and_eq_true, beq_iff_eq, ih, preOf]
      constructor
      · rintro ⟨hab, t, ht⟩
        exact ⟨t, by simp [hab, ht]⟩
      · rintro ⟨t, ht⟩
        have h1 : a = b := by
          have := congrArg (·.head?) ht
          simpa using this
        have h2 : p ++ t = s := by
          have := congrArg (·.tail) ht
          simpa using this
        exact ⟨h1, t, h2⟩

theorem suffixOf_iff {p s : List Char} : p.isSuffixOf s = true ↔ sufOf p s := by
  simp only [List.isSuffixOf]
  rw [prefixOf_iff]
  constructor
  · rintro ⟨t, ht⟩
    refine ⟨t.reverse, ?_⟩
    have := congrArg List.reverse ht
    simpa [List.reverse_append] using this
  · rintro ⟨t, ht⟩
    refine ⟨t.reverse, ?_⟩
    have := congrArg List.reverse ht
    simpa [List.reverse_append] using this

theorem preOf_iff_take {p s : List Char} :
    preOf p s ↔ p.length ≤ s.length ∧ s.take p.length = p := by
  constructor
  · rintro ⟨t, ht⟩
    subst ht
    constructor
    · simp
    · simp [List.take_append_eq_append_take]
  · rintro ⟨hle, htake⟩
    refine ⟨s.drop p.length, ?_⟩
    have h := List.take_append_drop p.length s
    rw [htake] at h
    exact h

theorem preOf_mono_left {p a b : List Char} (h : preOf p (a ++ b))
    (hle : p.length ≤ a.length) : preOf p a := by
  rw [preOf_iff_take] at h ⊢
  obtain ⟨-, htake⟩ := h
  refine ⟨hle, ?_⟩
  rw [List.take_append_eq_append_take] at htake
  have hz : p.length - a.length = 0 := by omega
  simpa [hz] using htake

theorem preOf_flip {p a b : List Char} (h : preOf p (a ++ b))
    (hle : a.length ≤ p.length) : preOf a p := by
  rw [preOf_iff_take] at h ⊢
  obtain ⟨hl, htake⟩ := h
  rw [List.length_append] at hl
  refine ⟨hle, ?_⟩
  have := congrArg (List.take a.length) htake
  rw [List.take_take, Nat.min_eq_left hle, List.take_append_eq_append_take,
    Nat.sub_eq_zero_of_le le_rfl, List.take_zero, List.append_nil,
    List.take_length] at this
  exact this.symm

theorem sufOf_cons {p x : List Char} {c : Char} (h : sufOf p x) : sufOf p (c :: x) := by
  obtain ⟨t, ht⟩ := h
  exact ⟨c :: t, by simp [ht]⟩

theorem mem_of_sufOf {p x : List Char} {c : Char} (h : sufOf p x) (hc : c ∈ p) : c ∈ x := by
  obtain ⟨t, ht⟩ := h
  subst ht
  exact List.mem_append_right t hc

/-- Scanner for substring occurrence: `hasSubstr pat s` is true iff `pat`
occurs contiguously somewhere in `s`. -/
def hasSubstr (pat : List Char) : List Char → Bool
  | [] => pat.isPrefixOf []
  | c :: rest => pat.isPrefixOf (c :: rest) || hasSubstr pat rest

theorem hasSubstr_of_preOf {pat s : List Char} (h : preOf pat s) :
    hasSubstr pat s = true := by
  cases s with
  | nil =>
    obtain ⟨t, ht⟩ := h
    have hp : pat = [] := (List.append_eq_nil.mp ht).1
    subst hp
    simp [hasSubstr, List.isPrefixOf]
  | cons c rest => simp [hasSubstr, prefixOf_iff.mpr h]

theorem hasSubstr_cons_false {pat s : List Char} {c : Char}
    (h : hasSubstr pat (c :: s) = false) :
    pat.isPrefixOf (c :: s) = false ∧ hasSubstr pat s = false := by
  simpa [hasSubstr] using h

/-- Occurrence anywhere in the right part lifts to the whole append. -/
theorem hasSubstr_append_right {pat b : List Char} (a : List Char)
    (h : hasSubstr pat b = true) : hasSubstr pat (a ++ b) = true := by
  induction a with
  | nil => simpa
  | cons c a ih => simp [hasSubstr, ih]

/-- Bool test that no nonempty proper prefix of `pat` is a suffix of `x`
(hence no occurrence of `pat` in `x ++ y` can start inside `x` and spill over). -/
def noSpanB (pat x : List Char) : Bool :=
  (List.range pat.length).all fun k => k == 0 || ! ((pat.take k).isSuffixOf x)

theorem noSpanB_iff {pat x : List Char} :
    noSpanB pat x = true ↔ ∀ k, 0 < k → k < pat.length → ¬ sufOf (pat.take k) x := by
  simp only [noSpanB, List.all_eq_true, List.mem_range, Bool.or_eq_true, beq_iff_eq,
    Bool.not_eq_true']
  constructor
  · intro h k hk0 hklen hsuf
    rcases h k hklen with h0 | hfalse
    · omega
    · exact absurd hfalse (by simp [suffixOf_iff.mpr hsuf])
  · intro h k hklen
    by_cases hk0 : k = 0
    · exact Or.inl hk0
    · refine Or.inr ?_
      cases hx : (pat.take k).isSuffixOf x with
      | false => rfl
      | true =>
        exact absurd (suffixOf_iff.mp hx) (h k (Nat.pos_of_ne_zero hk0) hklen)

theorem noSpanB_cons {pat x : List Char} {c : Char}
    (h : noSpanB pat (c :: x) = true) : noSpanB pat x = true := by
  rw [noSpanB_iff] at h ⊢
  intro k hk0 hklen hsuf
  exact h k hk0 hklen (sufOf_cons hsuf)

/-- Model of Python `str.replace`: replace all non-overlapping occurrences of
`pat` by `rep`, scanning left to right.  Every pattern the app passes to
`.replace` is a non-empty literal; for an empty pattern this model is the
identity. -/
def pyReplace (pat rep : List Char) : List Char → List Char
  | [] => []
  | c :: rest =>
    if h : pat ≠ [] ∧ pat.isPrefixOf (c :: rest) then
      rep ++ pyReplace pat rep ((c :: rest).drop pat.length)
    else
      c :: pyReplace pat rep rest
termination_by s => s.length
decreasing_by
  · have hp : 1 ≤ pat.length := by
      cases hq : pat with
      | nil => exact absurd hq h.1
      | cons a l => simp
    simp only [List.length_drop, List.length_cons]
    omega
  · simp only [List.length_cons]
    omega

theorem pyReplace_nil {pat rep : List Char} : pyReplace pat rep [] = [] := by
  simp [pyReplace]

theorem pyReplace_cons_neg {pat rep s : List Char} {c : Char}
    (h : ¬(pat ≠ [] ∧ pat.isPrefixOf (c :: s) = true)) :
    pyReplace pat rep (c :: s) = c :: pyReplace pat rep s := by
  rw [pyReplace]
  simp only [h, dite_false]

/-- Head occurrence: replacing at a position where `pat` is the immediate prefix. -/
theorem pyReplace_head {pat rep : List Char} (hpat : pat ≠ []) (z : List Char) :
    pyReplace pat rep (pat ++ z) = rep ++ pyReplace pat rep z := by
  cases hq : pat with
  | nil => exact absurd hq hpat
  | cons a p =>
    rw [← hq]
    have hcons : pat ++ z = a :: (p ++ z) := by rw [hq]; rfl
    rw [hcons, pyReplace]
    have hpre : pat.isPrefixOf (a :: (p ++ z)) = true := by
      rw [← hcons]
      exact prefixOf_iff.mpr ⟨z, rfl⟩
    simp only [hpat, hpre, and_self, ne_eq, not_false_iff, dite_true]
    congr 1
    rw [← hcons, List.drop_left]

/-- A pattern that occurs nowhere is not replaced. -/
theorem pyReplace_absent {pat rep : List Char} (s : List Char)
    (h : hasSubstr pat s = false) (hpat : pat ≠ []) :
    pyReplace pat rep s = s := by
  induction s with
  | nil => exact pyReplace_nil
  | cons c rest ih =>
    obtain ⟨h1, h2⟩ := hasSubstr_cons_false h
    rw [pyReplace_cons_neg (by simp [h1]), ih h2]

/-- Scanning past a block that contains no occurrence of `pat` and whose
suffixes cannot start an occurrence that spills into the rest. -/
theorem pyReplace_skip {pat rep : List Char} (hpat : pat ≠ []) :
    ∀ (x y : List Char), hasSubstr pat x = false → noSpanB pat x = true →
      pyReplace pat rep (x ++ y) = x ++ pyReplace pat rep y := by
  intro x
  induction x with
  | nil => intro y _ _; simp
  | cons c x ih =>
    intro y hsub hspan
    obtain ⟨h1, h2⟩ := hasSubstr_cons_false hsub
    have hnotpre : pat.isPrefixOf (c :: (x ++ y)) = false := by
      cases hp : pat.isPrefixOf (c :: (x ++ y))
      · rfl
      · exfalso
        have hpre : preOf pat ((c :: x) ++ y) := by
          simpa using prefixOf_iff.mp hp
        by_cases hlen : pat.length ≤ (c :: x).length
        · have : preOf pat (c :: x) := preOf_mono_left hpre hlen
          have := hasSubstr_of_preOf this
          rw [hsub] at this
          exact absurd this (by simp)
        · have hflip : preOf (c :: x) pat := preOf_flip hpre (by omega)
          have htake : pat.take (c :: x).length = c :: x :=
            (preOf_iff_take.mp hflip).2
          have hk := (noSpanB_iff.mp hspan) (c :: x).length (by simp)
            (by omega)
          rw [htake] at hk
          exact hk ⟨[], rfl⟩
    have : (c :: x) ++ y = c :: (x ++ y) := rfl
    rw [this, pyReplace_cons_neg (by simp [hnotpre]),
      ih y h2 (noSpanB_cons hspan)]
    rfl

/-- Combined: replace a single designated occurrence sitting between a clean
left part `x` and a clean tail `z`. -/
theorem pyReplace_once {pat rep : List Char} (hpat : pat ≠ [])
    (x z : List Char) (hx1 : hasSubstr pat x = false) (hx2 : noSpanB pat x = true)
    (hz : hasSubstr pat z = false) :
    pyReplace pat rep (x ++ (pat ++ z)) = x ++ (rep ++ z) := by
  rw [pyReplace_skip hpat x (pat ++ z) hx1 hx2, pyReplace_head hpat,
    pyReplace_absent z hz hpat]

/-- Combined: replace two designated occurrences. -/
theorem pyReplace_twice {pat rep : List Char} (hpat : pat ≠ [])
    (x y z : List Char) (hx1 : hasSubstr pat x = false) (hx2 : noSpanB pat x = true)
    (hy1 : hasSubstr pat y = false) (hy2 : noSpanB pat y = true)
    (hz : hasSubstr pat z = false) :
    pyReplace pat rep (x ++ (pat ++ (y ++ (pat ++ z)))) =
      x ++ (rep ++ (y ++ (rep ++ z))) := by
  rw [pyReplace_skip hpat x _ hx1 hx2, pyReplace_head hpat,
    pyReplace_once hpat y z hy1 hy2 hz]

/-- Absence glue over an append: no occurrence in either part and no spanning
occurrence starting in the left part. -/
theorem hasSubstr_append_absent {pat : List Char} :
    ∀ (a b : List Char), hasSubstr pat a = false → noSpanB pat a = true →
      hasSubstr pat b = false → hasSubstr pat (a ++ b) = false := by
  intro a
  induction a with
  | nil => intro b _ _ hb; simpa
  | cons c a ih =>
    intro b hsub hspan hb
    obtain ⟨h1, h2⟩ := hasSubstr_cons_false hsub
    have hpat : pat ≠ [] := by
      intro hq
      subst hq
      simp [List.isPrefixOf] at h1
    have hnotpre : pat.isPrefixOf (c :: (a ++ b)) = false := by
      cases hp : pat.isPrefixOf (c :: (a ++ b))
      · rfl
      · exfalso
        have hpre : preOf pat ((c :: a) ++ b) := by
          simpa using prefixOf_iff.mp hp
        by_cases hlen : pat.length ≤ (c :: a).length
        · have := hasSubstr_of_preOf (preOf_mono_left hpre hlen)
          rw [hsub] at this
          exact absurd this (by simp)
        · have hflip : preOf (c :: a) pat := preOf_flip hpre (by omega)
          have htake : pat.take (c :: a).length = c :: a :=
            (preOf_iff_take.mp hflip).2
          have hk := (noSpanB_iff.mp hspan) (c :: a).length (by simp) (by omega)
          rw [htake] at hk
          exact hk ⟨[], rfl⟩
    have : (c :: a) ++ b = c :: (a ++ b) := rfl
    rw [this]
    simp [hasSubstr, hnotpre, ih b h2 (noSpanB_cons hspan) hb]

theorem sufOf_iff_rev {p s : List Char} : sufOf p s ↔ preOf p.reverse s.reverse := by
  constructor
  · rintro ⟨t, ht⟩
    refine ⟨t.reverse, ?_⟩
    have := congrArg List.reverse ht
    simpa [List.reverse_append] using this
  · rintro ⟨t, ht⟩
    refine ⟨t.reverse, ?_⟩
    have := congrArg List.reverse ht
    simpa [List.reverse_append] using this

theorem sufOf_mono_right {p a b : List Char} (h : sufOf p (a ++ b))
    (hle : p.length ≤ b.length) : sufOf p b := by
  rw [sufOf_iff_rev] at h ⊢
  rw [List.reverse_append] at h
  exact preOf_mono_left h (by simpa)

/-- Scanning for a brace-headed pattern skips any block without an open brace. -/
theorem hasSubstr_brace_skip {pat : List Char} (hq : pat.head? = some '{') :
    ∀ (a b : List Char), '{' ∉ a → hasSubstr pat (a ++ b) = hasSubstr pat b := by
  intro a
  induction a with
  | nil => intro b _; simp
  | cons c a ih =>
    intro b hc
    cases hp : pat with
    | nil => rw [hp] at hq; simp at hq
    | cons q p =>
      have hqc : q = '{' := by rw [hp] at hq; simpa using hq
      have hcne : (q == c) = false := by
        have : c ≠ '{' := fun hcc => hc (by simp [hcc])
        simp [hqc]
        exact fun hcc => this hcc.symm
      have : (c :: a) ++ b = c :: (a ++ b) := rfl
      rw [this]
      simp only [hasSubstr, hp, List.isPrefixOf, hcne, Bool.false_and, Bool.false_or]
      rw [← hp]
      exact ih b (fun hm => hc (List.mem_cons_of_mem c hm))

theorem hasSubstr_brace_free {pat x : List Char} (hq : pat.head? = some '{')
    (hx : '{' ∉ x) : hasSubstr pat x = false := by
  have h := hasSubstr_brace_skip hq x [] hx
  rw [List.append_nil] at h
  rw [h]
  cases hp : pat with
  | nil => rw [hp] at hq; simp at hq
  | cons q p => simp [hasSubstr, List.isPrefixOf]

theorem take_brace_head {pat : List Char} {k : ℕ} (hq : pat.head? = some '{')
    (hk : 0 < k) : '{' ∈ pat.take k := by
  cases hp : pat with
  | nil => rw [hp] at hq; simp at hq
  | cons q p =>
    have hqc : q = '{' := by rw [hp] at hq; simpa using hq
    cases k with
    | zero => omega
    | succ m => simp [hqc]

theorem noSpanB_brace_free {pat x : List Char} (hq : pat.head? = some '{')
    (hx : '{' ∉ x) : noSpanB pat x = true := by
  rw [noSpanB_iff]
  intro k hk0 _ hsuf
  exact hx (mem_of_sufOf hsuf (take_brace_head hq hk0))

/-- Glue for `noSpanB` over an append whose left part has no open brace. -/
theorem noSpanB_append_braceleft {pat a b : List Char} (hq : pat.head? = some '{')
    (ha : '{' ∉ a) (hb : noSpanB pat b = true) : noSpanB pat (a ++ b) = true := by
  rw [noSpanB_iff] at hb ⊢
  intro k hk0 hklen hsuf
  by_cases hlen : (pat.take k).length ≤ b.length
  · exact hb k hk0 hklen (sufOf_mono_right hsuf hlen)
  · obtain ⟨u, hu⟩ := hsuf
    have hlu : u.length + (pat.take k).length = a.length + b.length := by
      have := congrArg List.length hu
      simpa using this
    have hua : u.length < a.length := by omega
    have ha_eq : a = u ++ (pat.take k).take (a.length - u.length) := by
      have h1 := congrArg (List.take a.length) hu
      rw [List.take_append_eq_append_take,
        List.take_of_length_le (le_of_lt hua)] at h1
      rw [List.take_append_eq_append_take, Nat.sub_eq_zero_of_le le_rfl,
        List.take_zero, List.append_nil, List.take_length] at h1
      exact h1.symm
    have hmem : '{' ∈ (pat.take k).take (a.length - u.length) := by
      have hb1 : '{' ∈ pat.take k := take_brace_head hq hk0
      cases hp : pat with
      | nil => rw [hp] at hq; simp at hq
      | cons q p =>
        have hqc : q = '{' := by rw [hp] at hq; simpa using hq
        have hm : 0 < a.length - u.length := by omega
        cases hk : k with
        | zero => omega
        | succ m =>
          cases hm2 : a.length - u.length with
          | zero => omega
          | succ m2 => simp [hp, hqc]
    exact ha (ha_eq ▸ List.mem_append_right u hmem)

/-- Glue for `noSpanB` over an append whose right part is at least as long as
the pattern (minus one): every candidate spanning suffix already sits in it. -/
theorem noSpanB_append_long {pat b : List Char} (a : List Char)
    (hb : noSpanB pat b = true)
    (hlen : pat.length ≤ b.length + 1) : noSpanB pat (a ++ b) = true := by
  rw [noSpanB_iff] at hb ⊢
  intro k hk0 hklen hsuf
  have hkb : (pat.take k).length ≤ b.length := by
    simp only [List.length_take]
    omega
  exact hb k hk0 hklen (sufOf_mono_right hsuf hkb)

/-- The two placeholder-shaped tokens the replace chain substitutes for the competency name. -/
def tokName : List Char := "\x7b\x7bCOMPETENCY_NAME\x7d\x7d".data
def tokDef : List Char := "\x7b\x7bCOMPETENCY_DEFINITION\x7d\x7d".data
def tokInd1 : List Char := "\x7b\x7bINDICATOR_1\x7d\x7d".data
def tokInd2 : List Char := "\x7b\x7bINDICATOR_2\x7d\x7d".data
def tokInd3 : List Char := "\x7b\x7bINDICATOR_3\x7d\x7d".data
def tokInd4 : List Char := "\x7b\x7bINDICATOR_4\x7d\x7d".data
def tokChose1 : List Char := "\x7b\x7bTHE FIRST INDICATOR YOU CHOSE\x7d\x7d".data
def tokChose2 : List Char := "\x7b\x7bTHE SECOND INDICATOR YOU CHOSE\x7d\x7d".data

/-- Verbatim piece of the MASTER_PROMPT literal (src/app.py lines 11-94). -/
def segS0c0 : List Char := "\n### ROLE & GOAL ###\nYou are \"Athena,\" a highly skilled Organisational Psychologist and Assessment Designer. Your expertise lies in creating psychometrically sound, behavioral Situational Judgement Tests (SJTs). Your mission is to generate plausible and nuanced SJTs for a professional, hierarchical environment like the UAE Ministry of Defence, based on a provided competency framework.\n\n### GUIDING PRINCIPLES & CONSTRAINTS (NON-NEGOTIABLE) ###\n1. **Behavioral, Not Technical:** Situations and response options must be purely behavioral. They must not require any specialized technical knowledge or domain-specific jargon to understand or answer.\n2. **Generic Roles:** Scenarios should be written for a general \"individual contributor,\" \"team member,\" or \"junior officer\" level. Avoid using specifi".data

/-- Verbatim piece of the MASTER_PROMPT literal (src/app.py lines 11-94). -/
def segS0c1 : List Char := "c, high-ranking roles.\n3. **Distinct Contexts:** Each SJT you generate for a given competency must have a unique and distinct context. Do not repeat scenarios (e.g., if one SJT is about a project deadline, the next should be about a team conflict or a new procedure).\n4. **Plausible Distractors:** The incorrect options must be plausible, realistic actions that a reasonable person might consider, not obviously foolish or malicious choices.\n\n### CORE KNOWLEDGE: COMPETENCY FRAMEWORK ###\nYou will be provided with a competency and a list of its behavioral indicators for the PL1 (Proficiency Level 1).\n\n<competency_data>\n<name>".data

/-- Verbatim piece of the MASTER_PROMPT literal (src/app.py lines 11-94). -/
def segS1c0 : List Char := "</name>\n<definition>".data

/-- Verbatim piece of the MASTER_PROMPT literal (src/app.py lines 11-94). -/
def segS2c0 : List Char := "</definition>\n<pl1_indicators>\n<indicator>".data

/-- Verbatim piece of the MASTER_PROMPT literal (src/app.py lines 11-94). -/
def segS3c0 : List Char := "</indicator>\n<indicator>".data

/-- Verbatim piece of the MASTER_PROMPT literal (src/app.py lines 11-94). -/
def segS4c0 : List Char := "</indicator>\n<indicator>".data

/-- Verbatim piece of the MASTER_PROMPT literal (src/app.py lines 11-94). -/
def segS5c0 : List Char := "</indicator>\n<indicator>".data

/-- Verbatim piece of the MASTER_PROMPT literal (src/app.py lines 11-94). -/
def segS6c0 : List Char := "</indicator>\n</pl1_indicators>\n</competency_data>\n\n### EXEMPLARY CASE (FEW-SHOT LEARNING) ###\nTo ensure you understand the required style and quality, study these SME-approved examples. Note how the situations create a dilemma between different professional behaviors and how the options are scored on a four-point scale.\n\n<sjt_gold_standard_example>\n<competency>Effective Intelligence</competency>\n<situation>You are leading your squad during officer training in preparing for a readiness assessment tomorrow. The assessment will involve a map-reading test, a timed equipment drill, and a short tactical briefing to instructors. You only have one evening to prepare, and the squad is tired after a long day. It is unlikely that you can prepare equally well for all three components. How would you ap".data

/-- Verbatim piece of the MASTER_PROMPT literal (src/app.py lines 11-94). -/
def segS6c1 : List Char := "proach this situation?</situation>\n<options>\n<option score=\"0.75\">Split the squad evenly across the three components so that all areas receive some attention, even if this reduces the depth of preparation for all the tasks overall.</option>\n<option score=\"0.25\">Start preparation with the component that seems easiest for the squad to handle, reasoning that building early confidence will make the team more motivated for the harder tasks.</option>\n<option score=\"0.0\">Follow the order of the assessment as given (map-reading, then equipment, then briefing), preparing in that sequence without changing the plan.</option>\n<option score=\"1.0\">Quickly assess which component the squad is weakest on and focus the majority of your limited time on that area to prevent a critical failure, even if it mean".data

/-- Verbatim piece of the MASTER_PROMPT literal (src/app.py lines 11-94). -/
def segS6c2 : List Char := "s other areas are only briefly reviewed.</option>\n</options>\n</sjt_gold_standard_example>\n\n<sjt_gold_standard_example>\n<competency>Communication</competency>\n<situation>You are preparing a short progress update for a group of stakeholders from different departments. Some are interested in technical details, while others only want a clear overview of the key outcomes. You have limited time to present, and you need to make sure everyone understands the information. How would you navigate this situation?</situation>\n<options>\n<option score=\"0.75\">Share the update verbally with both detail and overview included, aiming to cover as much ground as possible within the time available.</option>\n<option score=\"0.0\">Share all the detailed points in the order they occurred, even if it means the update".data

/-- Verbatim piece of the MASTER_PROMPT literal (src/app.py lines 11-94). -/
def segS6c3 : List Char := " runs longer than expected.</option>\n<option score=\"0.25\">Focus your update mainly on the aspects you are most familiar with, even if it does not fully address what each audience expects.</option>\n<option score=\"1.0\">Share a concise overview supported by simple visuals, highlight the main outcomes, and provide technical details in a handout for those who want more depth.</option>\n</options>\n</sjt_gold_standard_example>\n\n### COGNITIVE WORKFLOW: TASK ###\nYour task is to generate a new, unique SJT for the competency provided in the `CORE KNOWLEDGE` section. Follow these steps meticulously:\n\n1. **Select Two Target Indicators:** From the list of four indicators in `<pl1_indicators>`, choose **two** that can be put into a state of tension or conflict. These two indicators will be the focus of yo".data

/-- Verbatim piece of the MASTER_PROMPT literal (src/app.py lines 11-94). -/
def segS6c4 : List Char := "ur scenario.\n2. **Brainstorm a Dilemma:** Create a realistic work scenario that forces a person to choose between behaviors related to the two indicators you selected.\n3. **Write the Situation & Question:** Draft a clear, concise paragraph (70-100 words) describing the dilemma, followed by a question like \"What is your most effective course of action?\"\n4. **Generate Four Behavioral Options:** Create four distinct, plausible behavioral options.\n   * **One option must be the \"Positive High\" (ideal) response (maps to score 1.0).** This option often synthesizes the best aspects of both target indicators.\n   * **The other three options should be plausible but suboptimal distractors, mapping to \"Positive Low\" (0.75), \"Negative Low\" (0.25), and \"Negative High\" (0.0).**\n5. **Provide Rationale:** I".data

/-- Verbatim piece of the MASTER_PROMPT literal (src/app.py lines 11-94). -/
def segS6c5 : List Char := "n a separate block, briefly explain why you chose the two target indicators and how the situation creates a dilemma for them.\n\n### OUTPUT FORMAT ###\nYou MUST provide the output in a single, clean JSON object. Do not include any text outside of the JSON structure.\n\n```json\n\x7b\n  \"competency_name\": \"".data

/-- Verbatim piece of the MASTER_PROMPT literal (src/app.py lines 11-94). -/
def segS7c0 : List Char := "\",\n  \"sjt_indicator_mapping\": [\n    \"\x7b\x7bTHE FIRST INDICATOR YOU CHOSE\x7d\x7d\",\n    \"\x7b\x7bTHE SECOND INDICATOR YOU CHOSE\x7d\x7d\"\n  ],\n  \"sjt\": \x7b\n    \"situation\": \"Your generated situation text here.\",\n    \"question\": \"Your generated question here.\",\n    \"options\": [\n      \x7b \"option_text\": \"Action A text here.\", \"score_level\": \"Positive High\" \x7d,\n      \x7b \"option_text\": \"Action B text here.\", \"score_level\": \"Positive Low\" \x7d,\n      \x7b \"option_text\": \"Action C text here.\", \"score_level\": \"Negative Low\" \x7d,\n      \x7b \"option_text\": \"Action D text here.\", \"score_level\": \"Negative High\" \x7d\n    ]\n  \x7d,\n  \"validation_rationale\": \"A brief explanation of the dilemma created between the two chosen indicators.\"\n\x7d\n```\n".data

def segS0 : List Char := segS0c0 ++ segS0c1

def segS1 : List Char := segS1c0

def segS2 : List Char := segS2c0

def segS3 : List Char := segS3c0

def segS4 : List Char := segS4c0

def segS5 : List Char := segS5c0

def segS6 : List Char := segS6c0 ++ (segS6c1 ++ (segS6c2 ++ (segS6c3 ++ (segS6c4 ++ segS6c5))))

def segS7 : List Char := segS7c0

/-- Full prompt template of the app.  The pieces `segS0, …, segS7` and the
placeholder tokens concatenate to exactly the `MASTER_PROMPT` string literal of
src/app.py (lines 11-94); the string is split here at the placeholder
occurrences and into sub-kilobyte chunks. -/
def MASTER_PROMPT : List Char :=
  segS0 ++ (tokName ++ (segS1 ++ (tokDef ++ (segS2 ++ (tokInd1 ++ (segS3 ++ (tokInd2 ++
    (segS4 ++ (tokInd3 ++ (segS5 ++ (tokInd4 ++ (segS6 ++ (tokName ++ segS7)))))))))))))

/-- Model of `parse_indicators` padding in the batch loop:
`padded_indicators = pl1_indicators + [''] * (4 - len(pl1_indicators))`. -/
def padIndicators (inds : List (List Char)) : List (List Char) :=
  inds ++ List.replicate (4 - inds.length) []

/-- Model of the prompt rendering chain (src/app.py lines 192-200): six
successive `str.replace` calls on the master template. -/
def renderPrompt (name theme : List Char) (inds : List (List Char)) : List Char :=
  let padded := padIndicators inds
  let p1 := pyReplace tokName name MASTER_PROMPT
  let p2 := pyReplace tokDef theme p1
  let p3 := pyReplace tokInd1 (padded.getD 0 []) p2
  let p4 := pyReplace tokInd2 (padded.getD 1 []) p3
  let p5 := pyReplace tokInd3 (padded.getD 2 []) p4
  pyReplace tokInd4 (padded.getD 3 []) p5

/-- Bundled per-block cleanliness used when scanning past a concrete block. -/
def cleanB (pat x : List Char) : Bool := !(hasSubstr pat x) && noSpanB pat x

theorem cleanB_split {pat x : List Char} (h : cleanB pat x = true) :
    hasSubstr pat x = false ∧ noSpanB pat x = true := by
  simpa [cleanB] using h

/-- Bool scan for absence of the open-brace character. -/
def braceFreeB (x : List Char) : Bool := x.all fun c => ! (c = '{')

theorem braceFreeB_not_mem {x : List Char} (h : braceFreeB x = true) : '{' ∉ x := by
  intro hm
  have := (List.all_eq_true.mp h) _ hm
  simp at this

theorem not_mem_append_chars {c : Char} {a b : List Char} (ha : c ∉ a) (hb : c ∉ b) :
    c ∉ a ++ b := by
  intro hm
  rcases List.mem_append.mp hm with h | h
  · exact ha h
  · exact hb h

/-- Peel a brace-free block off an absence goal. -/
theorem absent_bf {pat a b : List Char} (hq : pat.head? = some '{') (ha : '{' ∉ a)
    (hb : hasSubstr pat b = false) : hasSubstr pat (a ++ b) = false := by
  rw [hasSubstr_brace_skip hq a b ha]
  exact hb

/-- Peel a clean (absence + no-span checked) block off an absence goal. -/
theorem absent_clean {pat a b : List Char} (hc : cleanB pat a = true)
    (hb : hasSubstr pat b = false) : hasSubstr pat (a ++ b) = false :=
  hasSubstr_append_absent a b (cleanB_split hc).1 (cleanB_split hc).2 hb

theorem braceFree_segS0 : '{' ∉ segS0 :=
  not_mem_append_chars (braceFreeB_not_mem (by decide)) (braceFreeB_not_mem (by decide))

theorem braceFree_segS1 : '{' ∉ segS1 := braceFreeB_not_mem (by decide)

theorem braceFree_segS2 : '{' ∉ segS2 := braceFreeB_not_mem (by decide)

theorem braceFree_segS3 : '{' ∉ segS3 := braceFreeB_not_mem (by decide)

theorem braceFree_segS4 : '{' ∉ segS4 := braceFreeB_not_mem (by decide)

theorem braceFree_segS5 : '{' ∉ segS5 := braceFreeB_not_mem (by decide)

theorem braceFree_segS6c0 : '{' ∉ segS6c0 := braceFreeB_not_mem (by decide)

theorem braceFree_segS6c1 : '{' ∉ segS6c1 := braceFreeB_not_mem (by decide)

theorem braceFree_segS6c2 : '{' ∉ segS6c2 := braceFreeB_not_mem (by decide)

theorem braceFree_segS6c3 : '{' ∉ segS6c3 := braceFreeB_not_mem (by decide)

theorem braceFree_segS6c4 : '{' ∉ segS6c4 := braceFreeB_not_mem (by decide)

theorem tokName_ne : tokName ≠ [] := by decide

theorem tokDef_ne : tokDef ≠ [] := by decide

theorem tokInd1_ne : tokInd1 ≠ [] := by decide

theorem tokInd2_ne : tokInd2 ≠ [] := by decide

theorem tokInd3_ne : tokInd3 ≠ [] := by decide

theorem tokInd4_ne : tokInd4 ≠ [] := by decide

theorem tokName_hd : tokName.head? = some '{' := by decide

theorem tokDef_hd : tokDef.head? = some '{' := by decide

theorem tokInd1_hd : tokInd1.head? = some '{' := by decide

theorem tokInd2_hd : tokInd2.head? = some '{' := by decide

theorem tokInd3_hd : tokInd3.head? = some '{' := by decide

theorem tokInd4_hd : tokInd4.head? = some '{' := by decide

theorem segS6_clean {pat : List Char} (hq : pat.head? = some '{')
    (habs : hasSubstr pat segS6c5 = false) (hspan : noSpanB pat segS6c5 = true) :
    hasSubstr pat segS6 = false ∧ noSpanB pat segS6 = true := by
  constructor
  · show hasSubstr pat
      (segS6c0 ++ (segS6c1 ++ (segS6c2 ++ (segS6c3 ++ (segS6c4 ++ segS6c5))))) = false
    exact absent_bf hq braceFree_segS6c0 (absent_bf hq braceFree_segS6c1
      (absent_bf hq braceFree_segS6c2 (absent_bf hq braceFree_segS6c3
        (absent_bf hq braceFree_segS6c4 habs))))
  · show noSpanB pat
      (segS6c0 ++ (segS6c1 ++ (segS6c2 ++ (segS6c3 ++ (segS6c4 ++ segS6c5))))) = true
    exact noSpanB_append_braceleft hq braceFree_segS6c0
      (noSpanB_append_braceleft hq braceFree_segS6c1
        (noSpanB_append_braceleft hq braceFree_segS6c2
          (noSpanB_append_braceleft hq braceFree_segS6c3
            (noSpanB_append_braceleft hq braceFree_segS6c4 hspan))))

theorem len_le_append {pat y : List Char} (x : List Char) (h : pat.length ≤ y.length + 1) :
    pat.length ≤ (x ++ y).length + 1 := by
  simp only [List.length_append]
  omega

theorem segS6_len {pat : List Char} (h : pat.length ≤ segS6c5.length + 1) :
    pat.length ≤ segS6.length + 1 := by
  show pat.length ≤
    (segS6c0 ++ (segS6c1 ++ (segS6c2 ++ (segS6c3 ++ (segS6c4 ++ segS6c5))))).length + 1
  exact len_le_append segS6c0 (len_le_append segS6c1 (len_le_append segS6c2
    (len_le_append segS6c3 (len_le_append segS6c4 h))))

/-- One substituted occurrence between a brace-free left context and a clean tail. -/
theorem step_once {pat rep x z : List Char} (hpat : pat ≠ [])
    (hq : pat.head? = some '{') (hx : '{' ∉ x) (hz : hasSubstr pat z = false) :
    pyReplace pat rep (x ++ (pat ++ z)) = x ++ (rep ++ z) :=
  pyReplace_once hpat x z (hasSubstr_brace_free hq hx) (noSpanB_brace_free hq hx) hz

/-- Exact shape of the fully substituted prompt: the six substitution
placeholders are replaced by the record fields; nothing else changes.
Hypotheses: the substituted field values contain no open brace (true of any
real competency text; braces could otherwise smuggle in new token shapes). -/
theorem render_chain_decomp (name theme v0 v1 v2 v3 : List Char)
    (hn : '{' ∉ name) (ht : '{' ∉ theme) (h0 : '{' ∉ v0) (h1 : '{' ∉ v1)
    (h2 : '{' ∉ v2) (h3 : '{' ∉ v3) :
    pyReplace tokInd4 v3 (pyReplace tokInd3 v2 (pyReplace tokInd2 v1 (pyReplace tokInd1 v0
      (pyReplace tokDef theme (pyReplace tokName name MASTER_PROMPT))))) =
    segS0 ++ (name ++ (segS1 ++ (theme ++ (segS2 ++ (v0 ++ (segS3 ++ (v1 ++ (segS4 ++ (v2 ++ (segS5 ++ (v3 ++ (segS6 ++ (name ++ (segS7)))))))))))))) := by
  have hq1 := tokName_hd
  obtain ⟨h6abs, h6span⟩ := segS6_clean hq1 (by decide) (by decide)
  have hS7a : hasSubstr tokName segS7 = false := by decide
  have hMabs : hasSubstr tokName (segS1 ++ (tokDef ++ (segS2 ++ (tokInd1 ++ (segS3 ++ (tokInd2 ++ (segS4 ++ (tokInd3 ++ (segS5 ++ (tokInd4 ++ (segS6))))))))))) = false :=
    absent_bf tokName_hd braceFree_segS1
      (absent_clean (by decide)
      (absent_bf tokName_hd braceFree_segS2
      (absent_clean (by decide)
      (absent_bf tokName_hd braceFree_segS3
      (absent_clean (by decide)
      (absent_bf tokName_hd braceFree_segS4
      (absent_clean (by decide)
      (absent_bf tokName_hd braceFree_segS5
      (absent_clean (by decide)
      (h6abs))))))))))
  have l0 : tokName.length ≤ segS6.length + 1 := segS6_len (by decide)
  have l1 := len_le_append tokInd4 l0
  have l2 := len_le_append segS5 l1
  have l3 := len_le_append tokInd3 l2
  have l4 := len_le_append segS4 l3
  have l5 := len_le_append tokInd2 l4
  have l6 := len_le_append segS3 l5
  have l7 := len_le_append tokInd1 l6
  have l8 := len_le_append segS2 l7
  have l9 := len_le_append tokDef l8
  have s1 := noSpanB_append_long tokInd4 h6span l0
  have s2 := noSpanB_append_long segS5 s1 l1
  have s3 := noSpanB_append_long tokInd3 s2 l2
  have s4 := noSpanB_append_long segS4 s3 l3
  have s5 := noSpanB_append_long tokInd2 s4 l4
  have s6 := noSpanB_append_long segS3 s5 l5
  have s7 := noSpanB_append_long tokInd1 s6 l6
  have s8 := noSpanB_append_long segS2 s7 l7
  have s9 := noSpanB_append_long tokDef s8 l8
  have s10 := noSpanB_append_long segS1 s9 l9
  have hM : MASTER_PROMPT = segS0 ++ (tokName ++ ((segS1 ++ (tokDef ++ (segS2 ++ (tokInd1 ++ (segS3 ++ (tokInd2 ++ (segS4 ++ (tokInd3 ++ (segS5 ++ (tokInd4 ++ (segS6))))))))))) ++ (tokName ++ segS7))) := by
    simp [MASTER_PROMPT, List.append_assoc]
  have e1 : pyReplace tokName name MASTER_PROMPT =
      segS0 ++ (name ++ ((segS1 ++ (tokDef ++ (segS2 ++ (tokInd1 ++ (segS3 ++ (tokInd2 ++ (segS4 ++ (tokInd3 ++ (segS5 ++ (tokInd4 ++ (segS6))))))))))) ++ (name ++ segS7))) := by
    rw [hM]
    exact pyReplace_twice tokName_ne segS0 (segS1 ++ (tokDef ++ (segS2 ++ (tokInd1 ++ (segS3 ++ (tokInd2 ++ (segS4 ++ (tokInd3 ++ (segS5 ++ (tokInd4 ++ (segS6))))))))))) segS7
      (hasSubstr_brace_free hq1 braceFree_segS0) (noSpanB_brace_free hq1 braceFree_segS0)
      hMabs s10 hS7a
  have hx2 : '{' ∉ (segS0 ++ (name ++ (segS1))) :=
    not_mem_append_chars braceFree_segS0 (not_mem_append_chars hn braceFree_segS1)
  have hz2 : hasSubstr tokDef (segS2 ++ (tokInd1 ++ (segS3 ++ (tokInd2 ++ (segS4 ++ (tokInd3 ++ (segS5 ++ (tokInd4 ++ (segS6c0 ++ (segS6c1 ++ (segS6c2 ++ (segS6c3 ++ (segS6c4 ++ (segS6c5 ++ (name ++ (segS7)))))))))))))))) = false :=
    absent_bf tokDef_hd braceFree_segS2
      (absent_clean (by decide)
      (absent_bf tokDef_hd braceFree_segS3
      (absent_clean (by decide)
      (absent_bf tokDef_hd braceFree_segS4
      (absent_clean (by decide)
      (absent_bf tokDef_hd braceFree_segS5
      (absent_clean (by decide)
      (absent_bf tokDef_hd braceFree_segS6c0
      (absent_bf tokDef_hd braceFree_segS6c1
      (absent_bf tokDef_hd braceFree_segS6c2
      (absent_bf tokDef_hd braceFree_segS6c3
      (absent_bf tokDef_hd braceFree_segS6c4
      (absent_clean (by decide)
      (absent_bf tokDef_hd hn
      ((by decide))))))))))))))))
  have hre2 : (segS0 ++ (name ++ ((segS1 ++ (tokDef ++ (segS2 ++ (tokInd1 ++ (segS3 ++ (tokInd2 ++ (segS4 ++ (tokInd3 ++ (segS5 ++ (tokInd4 ++ (segS6))))))))))) ++ (name ++ segS7)))) =
      (segS0 ++ (name ++ (segS1))) ++ (tokDef ++ (segS2 ++ (tokInd1 ++ (segS3 ++ (tokInd2 ++ (segS4 ++ (tokInd3 ++ (segS5 ++ (tokInd4 ++ (segS6c0 ++ (segS6c1 ++ (segS6c2 ++ (segS6c3 ++ (segS6c4 ++ (segS6c5 ++ (name ++ (segS7))))))))))))))))) := by
    simp [segS6, List.append_assoc]
  have e2 : pyReplace tokDef theme (segS0 ++ (name ++ ((segS1 ++ (tokDef ++ (segS2 ++ (tokInd1 ++ (segS3 ++ (tokInd2 ++ (segS4 ++ (tokInd3 ++ (segS5 ++ (tokInd4 ++ (segS6))))))))))) ++ (name ++ segS7)))) =
      (segS0 ++ (name ++ (segS1))) ++ (theme ++ (segS2 ++ (tokInd1 ++ (segS3 ++ (tokInd2 ++ (segS4 ++ (tokInd3 ++ (segS5 ++ (tokInd4 ++ (segS6c0 ++ (segS6c1 ++ (segS6c2 ++ (segS6c3 ++ (segS6c4 ++ (segS6c5 ++ (name ++ (segS7))))))))))))))))) := by
    rw [hre2]
    exact step_once tokDef_ne tokDef_hd hx2 hz2
  have hx3 : '{' ∉ (segS0 ++ (name ++ (segS1 ++ (theme ++ (segS2))))) :=
    not_mem_append_chars braceFree_segS0 (not_mem_append_chars hn (not_mem_append_chars braceFree_segS1 (not_mem_append_chars ht braceFree_segS2)))
  have hz3 : hasSubstr tokInd1 (segS3 ++ (tokInd2 ++ (segS4 ++ (tokInd3 ++ (segS5 ++ (tokInd4 ++ (segS6c0 ++ (segS6c1 ++ (segS6c2 ++ (segS6c3 ++ (segS6c4 ++ (segS6c5 ++ (name ++ (segS7)))))))))))))) = false :=
    absent_bf tokInd1_hd braceFree_segS3
      (absent_clean (by decide)
      (absent_bf tokInd1_hd braceFree_segS4
      (absent_clean (by decide)
      (absent_bf tokInd1_hd braceFree_segS5
      (absent_clean (by decide)
      (absent_bf tokInd1_hd braceFree_segS6c0
      (absent_bf tokInd1_hd braceFree_segS6c1
      (absent_bf tokInd1_hd braceFree_segS6c2
      (absent_bf tokInd1_hd braceFree_segS6c3
      (absent_bf tokInd1_hd braceFree_segS6c4
      (absent_clean (by decide)
      (absent_bf tokInd1_hd hn
      ((by decide))))))))))))))
  have hre3 : ((segS0 ++ (name ++ (segS1))) ++ (theme ++ (segS2 ++ (tokInd1 ++ (segS3 ++ (tokInd2 ++ (segS4 ++ (tokInd3 ++ (segS5 ++ (tokInd4 ++ (segS6c0 ++ (segS6c1 ++ (segS6c2 ++ (segS6c3 ++ (segS6c4 ++ (segS6c5 ++ (name ++ (segS7)))))))))))))))))) =
      (segS0 ++ (name ++ (segS1 ++ (theme ++ (segS2))))) ++ (tokInd1 ++ (segS3 ++ (tokInd2 ++ (segS4 ++ (tokInd3 ++ (segS5 ++ (tokInd4 ++ (segS6c0 ++ (segS6c1 ++ (segS6c2 ++ (segS6c3 ++ (segS6c4 ++ (segS6c5 ++ (name ++ (segS7))))))))))))))) := by
    simp [segS6, List.append_assoc]
  have e3 : pyReplace tokInd1 v0 ((segS0 ++ (name ++ (segS1))) ++ (theme ++ (segS2 ++ (tokInd1 ++ (segS3 ++ (tokInd2 ++ (segS4 ++ (tokInd3 ++ (segS5 ++ (tokInd4 ++ (segS6c0 ++ (segS6c1 ++ (segS6c2 ++ (segS6c3 ++ (segS6c4 ++ (segS6c5 ++ (name ++ (segS7)))))))))))))))))) =
      (segS0 ++ (name ++ (segS1 ++ (theme ++ (segS2))))) ++ (v0 ++ (segS3 ++ (tokInd2 ++ (segS4 ++ (tokInd3 ++ (segS5 ++ (tokInd4 ++ (segS6c0 ++ (segS6c1 ++ (segS6c2 ++ (segS6c3 ++ (segS6c4 ++ (segS6c5 ++ (name ++ (segS7))))))))))))))) := by
    rw [hre3]
    exact step_once tokInd1_ne tokInd1_hd hx3 hz3
  have hx4 : '{' ∉ (segS0 ++ (name ++ (segS1 ++ (theme ++ (segS2 ++ (v0 ++ (segS3))))))) :=
    not_mem_append_chars braceFree_segS0 (not_mem_append_chars hn (not_mem_append_chars braceFree_segS1 (not_mem_append_chars ht (not_mem_append_chars braceFree_segS2 (not_mem_append_chars h0 braceFree_segS3)))))
  have hz4 : hasSubstr tokInd2 (segS4 ++ (tokInd3 ++ (segS5 ++ (tokInd4 ++ (segS6c0 ++ (segS6c1 ++ (segS6c2 ++ (segS6c3 ++ (segS6c4 ++ (segS6c5 ++ (name ++ (segS7)))))))))))) = false :=
    absent_bf tokInd2_hd braceFree_segS4
      (absent_clean (by decide)
      (absent_bf tokInd2_hd braceFree_segS5
      (absent_clean (by decide)
      (absent_bf tokInd2_hd braceFree_segS6c0
      (absent_bf tokInd2_hd braceFree_segS6c1
      (absent_bf tokInd2_hd braceFree_segS6c2
      (absent_bf tokInd2_hd braceFree_segS6c3
      (absent_bf tokInd2_hd braceFree_segS6c4
      (absent_clean (by decide)
      (absent_bf tokInd2_hd hn
      ((by decide))))))))))))
  have hre4 : ((segS0 ++ (name ++ (segS1 ++ (theme ++ (segS2))))) ++ (v0 ++ (segS3 ++ (tokInd2 ++ (segS4 ++ (tokInd3 ++ (segS5 ++ (tokInd4 ++ (segS6c0 ++ (segS6c1 ++ (segS6c2 ++ (segS6c3 ++ (segS6c4 ++ (segS6c5 ++ (name ++ (segS7)))))))))))))))) =
      (segS0 ++ (name ++ (segS1 ++ (theme ++ (segS2 ++ (v0 ++ (segS3))))))) ++ (tokInd2 ++ (segS4 ++ (tokInd3 ++ (segS5 ++ (tokInd4 ++ (segS6c0 ++ (segS6c1 ++ (segS6c2 ++ (segS6c3 ++ (segS6c4 ++ (segS6c5 ++ (name ++ (segS7))))))))))))) := by
    simp [segS6, List.append_assoc]
  have e4 : pyReplace tokInd2 v1 ((segS0 ++ (name ++ (segS1 ++ (theme ++ (segS2))))) ++ (v0 ++ (segS3 ++ (tokInd2 ++ (segS4 ++ (tokInd3 ++ (segS5 ++ (tokInd4 ++ (segS6c0 ++ (segS6c1 ++ (segS6c2 ++ (segS6c3 ++ (segS6c4 ++ (segS6c5 ++ (name ++ (segS7)))))))))))))))) =
      (segS0 ++ (name ++ (segS1 ++ (theme ++ (segS2 ++ (v0 ++ (segS3))))))) ++ (v1 ++ (segS4 ++ (tokInd3 ++ (segS5 ++ (tokInd4 ++ (segS6c0 ++ (segS6c1 ++ (segS6c2 ++ (segS6c3 ++ (segS6c4 ++ (segS6c5 ++ (name ++ (segS7))))))))))))) := by
    rw [hre4]
    exact step_once tokInd2_ne tokInd2_hd hx4 hz4
  have hx5 : '{' ∉ (segS0 ++ (name ++ (segS1 ++ (theme ++ (segS2 ++ (v0 ++ (segS3 ++ (v1 ++ (segS4))))))))) :=
    not_mem_append_chars braceFree_segS0 (not_mem_append_chars hn (not_mem_append_chars braceFree_segS1 (not_mem_append_chars ht (not_mem_append_chars braceFree_segS2 (not_mem_append_chars h0 (not_mem_append_chars braceFree_segS3 (not_mem_append_chars h1 braceFree_segS4)))))))
  have hz5 : hasSubstr tokInd3 (segS5 ++ (tokInd4 ++ (segS6c0 ++ (segS6c1 ++ (segS6c2 ++ (segS6c3 ++ (segS6c4 ++ (segS6c5 ++ (name ++ (segS7)))))))))) = false :=
    absent_bf tokInd3_hd braceFree_segS5
      (absent_clean (by decide)
      (absent_bf tokInd3_hd braceFree_segS6c0
      (absent_bf tokInd3_hd braceFree_segS6c1
      (absent_bf tokInd3_hd braceFree_segS6c2
      (absent_bf tokInd3_hd braceFree_segS6c3
      (absent_bf tokInd3_hd braceFree_segS6c4
      (absent_clean (by decide)
      (absent_bf tokInd3_hd hn
      ((by decide))))))))))
  have hre5 : ((segS0 ++ (name ++ (segS1 ++ (theme ++ (segS2 ++ (v0 ++ (segS3))))))) ++ (v1 ++ (segS4 ++ (tokInd3 ++ (segS5 ++ (tokInd4 ++ (segS6c0 ++ (segS6c1 ++ (segS6c2 ++ (segS6c3 ++ (segS6c4 ++ (segS6c5 ++ (name ++ (segS7)))))))))))))) =
      (segS0 ++ (name ++ (segS1 ++ (theme ++ (segS2 ++ (v0 ++ (segS3 ++ (v1 ++ (segS4))))))))) ++ (tokInd3 ++ (segS5 ++ (tokInd4 ++ (segS6c0 ++ (segS6c1 ++ (segS6c2 ++ (segS6c3 ++ (segS6c4 ++ (segS6c5 ++ (name ++ (segS7))))))))))) := by
    simp [segS6, List.append_assoc]
  have e5 : pyReplace tokInd3 v2 ((segS0 ++ (name ++ (segS1 ++ (theme ++ (segS2 ++ (v0 ++ (segS3))))))) ++ (v1 ++ (segS4 ++ (tokInd3 ++ (segS5 ++ (tokInd4 ++ (segS6c0 ++ (segS6c1 ++ (segS6c2 ++ (segS6c3 ++ (segS6c4 ++ (segS6c5 ++ (name ++ (segS7)))))))))))))) =
      (segS0 ++ (name ++ (segS1 ++ (theme ++ (segS2 ++ (v0 ++ (segS3 ++ (v1 ++ (segS4))))))))) ++ (v2 ++ (segS5 ++ (tokInd4 ++ (segS6c0 ++ (segS6c1 ++ (segS6c2 ++ (segS6c3 ++ (segS6c4 ++ (segS6c5 ++ (name ++ (segS7))))))))))) := by
    rw [hre5]
    exact step_once tokInd3_ne tokInd3_hd hx5 hz5
  have hx6 : '{' ∉ (segS0 ++ (name ++ (segS1 ++ (theme ++ (segS2 ++ (v0 ++ (segS3 ++ (v1 ++ (segS4 ++ (v2 ++ (segS5))))))))))) :=
    not_mem_append_chars braceFree_segS0 (not_mem_append_chars hn (not_mem_append_chars braceFree_segS1 (not_mem_append_chars ht (not_mem_append_chars braceFree_segS2 (not_mem_append_chars h0 (not_mem_append_chars braceFree_segS3 (not_mem_append_chars h1 (not_mem_append_chars braceFree_segS4 (not_mem_append_chars h2 braceFree_segS5)))))))))
  have hz6 : hasSubstr tokInd4 (segS6c0 ++ (segS6c1 ++ (segS6c2 ++ (segS6c3 ++ (segS6c4 ++ (segS6c5 ++ (name ++ (segS7)))))))) = false :=
    absent_bf tokInd4_hd braceFree_segS6c0
      (absent_bf tokInd4_hd braceFree_segS6c1
      (absent_bf tokInd4_hd braceFree_segS6c2
      (absent_bf tokInd4_hd braceFree_segS6c3
      (absent_bf tokInd4_hd braceFree_segS6c4
      (absent_clean (by decide)
      (absent_bf tokInd4_hd hn
      ((by decide))))))))
  have hre6 : ((segS0 ++ (name ++ (segS1 ++ (theme ++ (segS2 ++ (v0 ++ (segS3 ++ (v1 ++ (segS4))))))))) ++ (v2 ++ (segS5 ++ (tokInd4 ++ (segS6c0 ++ (segS6c1 ++ (segS6c2 ++ (segS6c3 ++ (segS6c4 ++ (segS6c5 ++ (name ++ (segS7)))))))))))) =
      (segS0 ++ (name ++ (segS1 ++ (theme ++ (segS2 ++ (v0 ++ (segS3 ++ (v1 ++ (segS4 ++ (v2 ++ (segS5))))))))))) ++ (tokInd4 ++ (segS6c0 ++ (segS6c1 ++ (segS6c2 ++ (segS6c3 ++ (segS6c4 ++ (segS6c5 ++ (name ++ (segS7))))))))) := by
    simp [segS6, List.append_assoc]
  have e6 : pyReplace tokInd4 v3 ((segS0 ++ (name ++ (segS1 ++ (theme ++ (segS2 ++ (v0 ++ (segS3 ++ (v1 ++ (segS4))))))))) ++ (v2 ++ (segS5 ++ (tokInd4 ++ (segS6c0 ++ (segS6c1 ++ (segS6c2 ++ (segS6c3 ++ (segS6c4 ++ (segS6c5 ++ (name ++ (segS7)))))))))))) =
      (segS0 ++ (name ++ (segS1 ++ (theme ++ (segS2 ++ (v0 ++ (segS3 ++ (v1 ++ (segS4 ++ (v2 ++ (segS5))))))))))) ++ (v3 ++ (segS6c0 ++ (segS6c1 ++ (segS6c2 ++ (segS6c3 ++ (segS6c4 ++ (segS6c5 ++ (name ++ (segS7))))))))) := by
    rw [hre6]
    exact step_once tokInd4_ne tokInd4_hd hx6 hz6
  rw [e1, e2, e3, e4, e5, e6]
  simp [segS6, List.append_assoc]


/-- No brace-headed token that is absent from the tail pieces survives in the
fully substituted prompt shape. -/
theorem decomp_absent {pat : List Char} (hq : pat.head? = some '{')
    (hc5 : cleanB pat segS6c5 = true) (hS7 : hasSubstr pat segS7 = false)
    (name theme v0 v1 v2 v3 : List Char)
    (hn : '{' ∉ name) (ht : '{' ∉ theme) (h0 : '{' ∉ v0) (h1 : '{' ∉ v1)
    (h2 : '{' ∉ v2) (h3 : '{' ∉ v3) :
    hasSubstr pat (segS0 ++ (name ++ (segS1 ++ (theme ++ (segS2 ++ (v0 ++ (segS3 ++ (v1 ++ (segS4 ++ (v2 ++ (segS5 ++ (v3 ++ (segS6 ++ (name ++ (segS7))))))))))))))) = false := by
  have hex : (segS0 ++ (name ++ (segS1 ++ (theme ++ (segS2 ++ (v0 ++ (segS3 ++ (v1 ++ (segS4 ++ (v2 ++ (segS5 ++ (v3 ++ (segS6 ++ (name ++ (segS7))))))))))))))) =
      (segS0 ++ (name ++ (segS1 ++ (theme ++ (segS2 ++ (v0 ++ (segS3 ++ (v1 ++ (segS4 ++ (v2 ++ (segS5 ++ (v3 ++ (segS6c0 ++ (segS6c1 ++ (segS6c2 ++ (segS6c3 ++ (segS6c4 ++ (segS6c5 ++ (name ++ (segS7)))))))))))))))))))) := by
    simp [segS6, List.append_assoc]
  rw [hex]
  exact absent_bf hq braceFree_segS0
    (absent_bf hq hn
    (absent_bf hq braceFree_segS1
    (absent_bf hq ht
    (absent_bf hq braceFree_segS2
    (absent_bf hq h0
    (absent_bf hq braceFree_segS3
    (absent_bf hq h1
    (absent_bf hq braceFree_segS4
    (absent_bf hq h2
    (absent_bf hq braceFree_segS5
    (absent_bf hq h3
    (absent_bf hq braceFree_segS6c0
    (absent_bf hq braceFree_segS6c1
    (absent_bf hq braceFree_segS6c2
    (absent_bf hq braceFree_segS6c3
    (absent_bf hq braceFree_segS6c4
    (absent_clean hc5
    (absent_bf hq hn
    (hS7)))))))))))))))))))

/-- The two output-format instruction tokens remain in the substituted shape. -/
theorem decomp_present {pat : List Char} (hS7 : hasSubstr pat segS7 = true)
    (name theme v0 v1 v2 v3 : List Char) :
    hasSubstr pat (segS0 ++ (name ++ (segS1 ++ (theme ++ (segS2 ++ (v0 ++ (segS3 ++ (v1 ++ (segS4 ++ (v2 ++ (segS5 ++ (v3 ++ (segS6 ++ (name ++ (segS7))))))))))))))) = true := by
  exact hasSubstr_append_right segS0
    (hasSubstr_append_right name
    (hasSubstr_append_right segS1
    (hasSubstr_append_right theme
    (hasSubstr_append_right segS2
    (hasSubstr_append_right v0
    (hasSubstr_append_right segS3
    (hasSubstr_append_right v1
    (hasSubstr_append_right segS4
    (hasSubstr_append_right v2
    (hasSubstr_append_right segS5
    (hasSubstr_append_right v3
    (hasSubstr_append_right segS6
    (hasSubstr_append_right name
    (hS7))))))))))))))

theorem padIndicators_brace_free {inds : List (List Char)} (h : ∀ s ∈ inds, '{' ∉ s)
    (i : ℕ) : '{' ∉ (padIndicators inds).getD i [] := by
  rcases hq : (padIndicators inds).get? i with _ | s
  · simp [List.getD, ← List.get?_eq_getElem?, hq]
  · have hs : s ∈ padIndicators inds := List.get?_mem hq
    have : s ∈ inds ∨ s ∈ List.replicate (4 - inds.length) ([] : List Char) :=
      List.mem_append.mp hs
    rcases this with hi | hr
    · simpa [List.getD, ← List.get?_eq_getElem?, hq] using h s hi
    · have : s = [] := List.eq_of_mem_replicate hr
      simp [List.getD, ← List.get?_eq_getElem?, hq, this]

/-- Characterisation of `renderPrompt` on any record whose field strings are
brace-free: the result is the template with the six placeholders replaced. -/
theorem renderPrompt_decomp (name theme : List Char) (inds : List (List Char))
    (hn : '{' ∉ name) (ht : '{' ∉ theme) (hi : ∀ s ∈ inds, '{' ∉ s) :
    renderPrompt name theme inds =
      segS0 ++ (name ++ (segS1 ++ (theme ++ (segS2 ++ ((padIndicators inds).getD 0 [] ++
        (segS3 ++ ((padIndicators inds).getD 1 [] ++ (segS4 ++ ((padIndicators inds).getD 2 [] ++
          (segS5 ++ ((padIndicators inds).getD 3 [] ++ (segS6 ++ (name ++ segS7))))))))))))) := by
  show pyReplace tokInd4 ((padIndicators inds).getD 3 []) (pyReplace tokInd3
      ((padIndicators inds).getD 2 []) (pyReplace tokInd2 ((padIndicators inds).getD 1 [])
      (pyReplace tokInd1 ((padIndicators inds).getD 0 [])
      (pyReplace tokDef theme (pyReplace tokName name MASTER_PROMPT))))) = _
  exact render_chain_decomp name theme _ _ _ _ hn ht (padIndicators_brace_free hi 0)
    (padIndicators_brace_free hi 1) (padIndicators_brace_free hi 2)
    (padIndicators_brace_free hi 3)


/-! Response parsing (src/app.py lines 108-117). -/

/-- ASCII whitespace characters removed by Python `str.strip()`. -/
def isSpace (c : Char) : Bool :=
  c = ' ' || c = '\t' || c = '\n' || c = '\r' || c = '\x0b' || c = '\x0c'

/-- Model of Python `text.strip()`. -/
def stripChars (s : List Char) : List Char :=
  ((s.dropWhile isSpace).reverse.dropWhile isSpace).reverse

/-- Model of the Python slice `t[7:-3]` on the stripped reply. -/
def sliceSeven (t : List Char) : List Char :=
  (t.drop 7).take (t.length - 10)

def fenceOpen : List Char := "```json".data

/-- Python values as produced by `json.loads` (numbers are modelled as integers;
no arithmetic is ever performed on them). -/
inductive PyVal where
  | none
  | bool (b : Bool)
  | num (n : Int)
  | str (s : String)
  | list (xs : List PyVal)
  | dict (kvs : List (String × PyVal))

/-- Exceptions that the flattening code (lines 206-226) can raise. -/
inductive PyErr where
  | attributeError
  | indexError
  | keyError
  | typeError
deriving DecidableEq

/-- Model of `parse_gemini_response` (lines 108-117).  JSON decoding is kept
abstract: `jsonLoads` stands for `json.loads`, returning `none` exactly when
decoding raises `JSONDecodeError`, which the `try/except` turns into `None`. -/
def parse_gemini_response (jsonLoads : List Char → Option PyVal)
    (text : List Char) : Option PyVal :=
  if fenceOpen.isPrefixOf (stripChars text) then
    jsonLoads (sliceSeven (stripChars text))
  else
    jsonLoads text

/-! Flattening a parsed reply into a result row (src/app.py lines 206-226). -/

/-- Python truthiness, for the `if parsed_data:` guard (line 206). -/
def pyTruthy : PyVal → Bool
  | .none => false
  | .bool b => b
  | .num n => ! (n == 0)
  | .str s => ! (s == "")
  | .list xs => ! xs.isEmpty
  | .dict kvs => ! kvs.isEmpty

/-- Raw dictionary lookup (no exception semantics). -/
def dictGetRaw (v : PyVal) (k : String) : Option PyVal :=
  match v with
  | .dict kvs => kvs.lookup k
  | _ => Option.none

/-- Python `v.get(key, default)`: AttributeError unless the receiver is a dict. -/
def pyGet (v : PyVal) (k : String) (d : PyVal) : Except PyErr PyVal :=
  match v with
  | .dict kvs => .ok ((kvs.lookup k).getD d)
  | _ => .error .attributeError

/-- Python subscript `v[i]` for a non-negative index: IndexError past the end of
a list or string, KeyError on a (string-keyed) dict, TypeError otherwise. -/
def pyIndex (v : PyVal) (i : ℕ) : Except PyErr PyVal :=
  match v with
  | .list xs =>
    match xs.get? i with
    | some x => .ok x
    | Option.none => .error .indexError
  | .str s =>
    match s.data.get? i with
    | some c => .ok (.str (String.mk [c]))
    | Option.none => .error .indexError
  | .dict _ => .error .keyError
  | _ => .error .typeError

/-- Python iteration (for `sorted(options, …)`): lists yield elements, strings
yield one-character strings, dicts yield their keys; otherwise TypeError. -/
def pyIter (v : PyVal) : Except PyErr (List PyVal) :=
  match v with
  | .list xs => .ok xs
  | .str s => .ok (s.data.map fun c => .str (String.mk [c]))
  | .dict kvs => .ok (kvs.map fun kv => .str kv.1)
  | _ => .error .typeError

/-- The fixed category priority (line 218):
`score_map = {"Positive High": 0, "Positive Low": 1, "Negative Low": 2,
"Negative High": 3}` with `.get(…, 99)` for anything else. -/
def scoreMap : PyVal → ℕ
  | .str "Positive High" => 0
  | .str "Positive Low" => 1
  | .str "Negative Low" => 2
  | .str "Negative High" => 3
  | _ => 99

/-- The sort key of line 220: `score_map.get(x.get('score_level'), 99)`. -/
def scoreKeyPure (x : PyVal) : ℕ := scoreMap ((dictGetRaw x "score_level").getD .none)

/-- Stable insertion into a sorted list (ties keep the inserted element first,
matching the uniquely determined output of Python's stable `sorted`). -/
def insertLe {α : Type} (le : α → α → Bool) (x : α) : List α → List α
  | [] => [x]
  | y :: ys => if le x y then x :: y :: ys else y :: insertLe le x ys

/-- Stable sort by a Bool comparator (the result of Python's stable `sorted`). -/
def sortLe {α : Type} (le : α → α → Bool) : List α → List α
  | [] => []
  | x :: xs => insertLe le x (sortLe le xs)

/-- Sort by a numeric key, as `sorted(options, key=…)` does. -/
def sortByKey {α : Type} (key : α → ℕ) : List α → List α :=
  sortLe fun a b => Nat.ble (key a) (key b)

/-- Left-to-right effectful map in the `Except` monad (the order in which the
Python code evaluates the per-option expressions; the first raise wins). -/
def mapE {A B : Type} (f : A -> Except PyErr B) : List A -> Except PyErr (List B)
  | [] => .ok []
  | x :: xs => do
    let y <- f x
    let ys <- mapE f xs
    pure (y :: ys)

/-- One row of the output table. -/
structure ResultRow where
  competency : PyVal
  sjtNumber : String
  indicatorMapping1 : PyVal
  indicatorMapping2 : PyVal
  situation : PyVal
  question : PyVal
  rationale : PyVal
  options : List (PyVal × PyVal)

/-- Model of the `flat_data` construction and option flattening
(src/app.py lines 206-226), with Python's evaluation order and exception
behaviour.  `j` is the 0-based attempt index (`"SJT Number": f"SJT {j+1}"`). -/
def flatten (parsed : PyVal) (j : ℕ) : Except PyErr ResultRow := do
  let competency ← pyGet parsed "competency_name" .none
  let mapping ← pyGet parsed "sjt_indicator_mapping" (.list [.str "", .str ""])
  let im1 ← pyIndex mapping 0
  let im2 ← pyIndex mapping 1
  let sjt ← pyGet parsed "sjt" (.dict [])
  let situation ← pyGet sjt "situation" .none
  let question ← pyGet sjt "question" .none
  let rationale ← pyGet parsed "validation_rationale" .none
  let options ← pyGet sjt "options" (.list [])
  let optItems ← pyIter options
  let _ ← mapE (fun x => pyGet x "score_level" .none) optItems
  let sortedOpts := sortByKey scoreKeyPure optItems
  let cells ← mapE (fun o => do
    let t ← pyGet o "option_text" .none
    let l ← pyGet o "score_level" .none
    pure (t, l)) sortedOpts
  pure { competency := competency
         sjtNumber := "SJT " ++ toString (j + 1)
         indicatorMapping1 := im1
         indicatorMapping2 := im2
         situation := situation
         question := question
         rationale := rationale
         options := cells }

/-! Indicator parsing (src/app.py lines 119-125). -/

/-- Model of `re.split(r'\r\n|\r|\n', s)`: the alternation consumes `\r\n` as a
single separator first, then lone `\r` or `\n`. -/
def splitNl : List Char → List (List Char)
  | [] => [[]]
  | '\r' :: '\n' :: rest => [] :: splitNl rest
  | '\r' :: rest => [] :: splitNl rest
  | '\n' :: rest => [] :: splitNl rest
  | c :: rest =>
    match splitNl rest with
    | [] => [[c]]
    | g :: gs => (c :: g) :: gs

/-- Model of `parse_indicators` (lines 119-125) on a string cell: split on
newlines, strip each piece, keep the non-empty ones.  (The `isinstance` guard
only matters for non-string cells, which the grouped data never produces.) -/
def parse_indicators (blob : List Char) : List (List Char) :=
  ((splitNl blob).map stripChars).filter fun s => ! s.isEmpty

/-! The batch loop (src/app.py lines 164-237). -/

/-- One grouped competency record (a row of `df_competencies`). -/
structure CompRow where
  name : List Char
  theme : List Char
  indicators : List Char

/-- Outcome of one `model.generate_content` call: a raw text reply, or a raised
exception (network, quota, auth, …). -/
inductive Outcome where
  | reply (text : List Char)
  | raise

/-- Accumulated state of one batch run. -/
structure BatchState where
  results : List ResultRow
  calls : ℕ
  sleeps : ℕ
  skipped : List (List Char)

def initState : BatchState := ⟨[], 0, 0, []⟩

/-- One attempt (lines 187-231): render the prompt, call the service, parse,
flatten and append on a truthy parse, then `time.sleep(1)`.  The `except`
branch (line 229) catches any raised exception, skipping both the append and
the sleep.  Returns the appended row (if any) and whether the sleep ran. -/
def runAttempt (jsonLoads : List Char → Option PyVal)
    (oracle : List Char → ℕ → Outcome) (row : CompRow) (j : ℕ) (callIdx : ℕ) :
    Option ResultRow × Bool :=
  let prompt := renderPrompt row.name row.theme (parse_indicators row.indicators)
  match oracle prompt callIdx with
  | .raise => (Option.none, false)
  | .reply t =>
    match parse_gemini_response jsonLoads t with
    | Option.none => (Option.none, true)
    | some v =>
      if pyTruthy v then
        match flatten v j with
        | .ok r => (some r, true)
        | .error _ => (Option.none, false)
      else
        (Option.none, true)

def stepAttempt (jsonLoads : List Char → Option PyVal)
    (oracle : List Char → ℕ → Outcome) (row : CompRow)
    (st : BatchState) (j : ℕ) : BatchState :=
  let pr := runAttempt jsonLoads oracle row j st.calls
  { results := st.results ++ pr.1.toList
    calls := st.calls + 1
    sleeps := st.sleeps + (if pr.2 then 1 else 0)
    skipped := st.skipped }

/-- One grouped record (lines 177-231): skip-and-warn when fewer than 2 parsed
indicators, otherwise run the 5 attempts. -/
def processRow (jsonLoads : List Char → Option PyVal)
    (oracle : List Char → ℕ → Outcome) (st : BatchState) (row : CompRow) :
    BatchState :=
  if (parse_indicators row.indicators).length < 2 then
    { st with skipped := st.skipped ++ [row.name] }
  else
    (List.range 5).foldl (stepAttempt jsonLoads oracle row) st

/-- The whole generation loop over the grouped records. -/
def runBatch (jsonLoads : List Char → Option PyVal)
    (oracle : List Char → ℕ → Outcome) (rows : List CompRow) : BatchState :=
  rows.foldl (processRow jsonLoads oracle) initState

/-! Input loading and preprocessing (src/app.py lines 142-162). -/

/-- A raw spreadsheet row; `Option.none` models a missing (NaN) cell. -/
structure RawRow where
  name : Option (List Char)
  theme : Option (List Char)
  indicators : Option (List Char)

/-- Forward fill (pandas `ffill`, lines 152-153) of the name and theme columns. -/
def ffill (lastN lastT : Option (List Char)) : List RawRow → List RawRow
  | [] => []
  | r :: rs =>
    let n := match r.name with
      | some x => some x
      | Option.none => lastN
    let t := match r.theme with
      | some x => some x
      | Option.none => lastT
    ⟨n, t, r.indicators⟩ :: ffill n t rs

/-- Lexicographic comparison of strings by code point, as Python compares the
grouped key tuples. -/
def strLt : List Char → List Char → Bool
  | [], [] => false
  | [], _ :: _ => true
  | _ :: _, [] => false
  | a :: as, b :: bs => if a < b then true else if b < a then false else strLt as bs

/-- Ordering of the `(Competency Name, Theme)` group keys used by pandas
`groupby` (keys are sorted ascending by default). -/
def keyLe (k1 k2 : List Char × List Char) : Bool :=
  strLt k1.1 k2.1 || (k1.1 == k2.1 && (strLt k1.2 k2.2 || k1.2 == k2.2))

/-- `'\n'.join(cells)` (the aggregation of line 159). -/
def joinNl (cells : List (List Char)) : List Char :=
  List.intercalate ['\n'] cells

/-- The rows that survive `dropna` (line 156) and the key-NaN drop of `groupby`:
forward-filled rows with an indicator cell and a complete (name, theme) key. -/
def keptRows (rows : List RawRow) : List RawRow :=
  ((ffill Option.none Option.none rows).filter fun r => r.indicators.isSome).filter
    fun r => r.name.isSome && r.theme.isSome

/-- The group keys, in input order (with repetitions). -/
def keptKeys (rows : List RawRow) : List (List Char × List Char) :=
  (keptRows rows).filterMap fun r =>
    match r.name, r.theme with
    | some n, some t => some (n, t)
    | _, _ => Option.none

/-- The distinct group keys. -/
def dedupKeys : List (List Char × List Char) → List (List Char × List Char)
  | [] => []
  | k :: ks => if k ∈ ks then dedupKeys ks else k :: dedupKeys ks

/-- Model of the preprocessing (lines 150-159): forward-fill name/theme, drop
rows with a missing indicator cell, group by `(Competency Name, Theme)` —
pandas drops rows whose key still has a missing value and emits the groups in
ascending key order (`groupby` sorts keys by default), joining each group's
indicator cells with `'\n'` in original row order. -/
def preprocess (rows : List RawRow) : List CompRow :=
  (sortLe keyLe (dedupKeys (keptKeys rows))).map fun k =>
    { name := k.1
      theme := k.2
      indicators := joinNl ((keptRows rows).filterMap fun r =>
        if r.name == some k.1 && r.theme == some k.2 then r.indicators
        else Option.none) }

/-- An uploaded table: its column names and its rows. -/
structure RawTable where
  columns : List String
  rows : List RawRow

/-- `required_columns` of line 145. -/
def requiredColumns : List String := ["Competency Name", "Theme", "Indicators (PL1)"]

/-- Upload handling (lines 142-237): the schema check guards everything; on
failure (`Option.none`) no records are processed and no calls are made. -/
def appRun (jsonLoads : List Char → Option PyVal)
    (oracle : List Char → ℕ → Outcome) (tbl : RawTable) : Option BatchState :=
  if requiredColumns.all (fun c => tbl.columns.contains c) then
    some (runBatch jsonLoads oracle (preprocess tbl.rows))
  else
    Option.none

/-- Number of generation-service calls made by a (possibly failed) run. -/
def callsMade (r : Option BatchState) : ℕ :=
  match r with
  | some st => st.calls
  | Option.none => 0

/-! Generic lemmas about the stable sort and about `mapE`. -/

theorem mem_insertLe_iff {α : Type} {le : α → α → Bool} {x b : α} :
    ∀ {l : List α}, b ∈ insertLe le x l ↔ (b = x ∨ b ∈ l) := by
  intro l
  induction l with
  | nil => simp [insertLe]
  | cons y ys ih =>
    by_cases hxy : le x y = true
    · simp [insertLe, hxy]
    · simp only [insertLe, hxy, Bool.false_eq_true, if_false, List.mem_cons, ih]
      tauto

theorem pairwise_insertLe {α : Type} {le : α → α → Bool}
    (htot : ∀ a b, le a b = true ∨ le b a = true)
    (htrans : ∀ a b c, le a b = true → le b c = true → le a c = true)
    (x : α) : ∀ {l : List α}, l.Pairwise (fun a b => le a b = true) →
      (insertLe le x l).Pairwise (fun a b => le a b = true) := by
  intro l
  induction l with
  | nil => intro _; simp [insertLe]
  | cons y ys ih =>
    intro h
    rcases List.pairwise_cons.mp h with ⟨hy, hys⟩
    by_cases hxy : le x y = true
    · simp only [insertLe, hxy, if_true]
      refine List.pairwise_cons.mpr ⟨?_, h⟩
      intro b hb
      rcases List.mem_cons.mp hb with rfl | hb2
      · exact hxy
      · exact htrans x y b hxy (hy b hb2)
    · simp only [insertLe, hxy, Bool.false_eq_true, if_false]
      refine List.pairwise_cons.mpr ⟨?_, ih hys⟩
      intro b hb
      rcases mem_insertLe_iff.mp hb with hbx | hb2
      · rw [hbx]
        rcases htot x y with h1 | h1
        · exact absurd h1 hxy
        · exact h1
      · exact hy b hb2

theorem pairwise_sortLe {α : Type} {le : α → α → Bool}
    (htot : ∀ a b, le a b = true ∨ le b a = true)
    (htrans : ∀ a b c, le a b = true → le b c = true → le a c = true) :
    ∀ l : List α, (sortLe le l).Pairwise (fun a b => le a b = true) := by
  intro l
  induction l with
  | nil => exact .nil
  | cons x xs ih => exact pairwise_insertLe htot htrans x ih

theorem mem_sortLe_iff {α : Type} {le : α → α → Bool} {b : α} :
    ∀ {l : List α}, b ∈ sortLe le l ↔ b ∈ l := by
  intro l
  induction l with
  | nil => simp [sortLe]
  | cons x xs ih =>
    simp only [sortLe, mem_insertLe_iff, ih, List.mem_cons]

theorem bind_ok_e {A B : Type} (a : A) (f : A → Except PyErr B) :
    (Except.ok a >>= f) = f a := rfl

theorem bind_error_e {A B : Type} (e : PyErr) (f : A → Except PyErr B) :
    ((Except.error e : Except PyErr A) >>= f) = Except.error e := rfl

theorem map_ok_e {A B : Type} (g : A → B) (a : A) :
    (g <$> (Except.ok a : Except PyErr A)) = Except.ok (g a) := rfl

theorem map_error_e {A B : Type} (g : A → B) (e : PyErr) :
    (g <$> (Except.error e : Except PyErr A)) = Except.error e := rfl

theorem mapE_ok_of_all {A B : Type} (f : A → Except PyErr B) :
    ∀ (xs : List A), (∀ x ∈ xs, ∃ y, f x = .ok y) → ∃ ys, mapE f xs = .ok ys := by
  intro xs
  induction xs with
  | nil => intro _; exact ⟨[], rfl⟩
  | cons x xs ih =>
    intro h
    obtain ⟨y, hy⟩ := h x (by simp)
    obtain ⟨ys, hys⟩ := ih fun a ha => h a (by simp [ha])
    exact ⟨y :: ys, by simp [mapE, hy, hys, bind_ok_e, map_ok_e]⟩

theorem mapE_forall2 {A B : Type} (f : A → Except PyErr B) :
    ∀ {xs : List A} {ys : List B}, mapE f xs = .ok ys →
      List.Forall₂ (fun x y => f x = .ok y) xs ys := by
  intro xs
  induction xs with
  | nil =>
    intro ys h
    simp only [mapE] at h
    cases h
    exact .nil
  | cons x xs ih =>
    intro ys h
    cases hfx : f x with
    | error e => simp [mapE, hfx, bind_error_e] at h
    | ok y =>
      cases hmx : mapE f xs with
      | error e => simp [mapE, hfx, hmx, bind_ok_e, bind_error_e, map_error_e] at h
      | ok ys2 =>
        simp only [mapE, hfx, hmx, bind_ok_e, map_ok_e] at h
        cases h
        exact .cons hfx (ih hmx)

theorem forall2_mem_right {A B : Type} {R : A → B → Prop} :
    ∀ {l1 : List A} {l2 : List B}, List.Forall₂ R l1 l2 →
      ∀ b ∈ l2, ∃ a ∈ l1, R a b := by
  intro l1 l2 hf
  induction hf with
  | nil => intro b hb; simp at hb
  | cons hR hf2 ih =>
    intro b hb
    rcases List.mem_cons.mp hb with rfl | hb2
    · exact ⟨_, by simp, hR⟩
    · obtain ⟨a, ha, hRa⟩ := ih b hb2
      exact ⟨a, by simp [ha], hRa⟩

theorem pairwise_of_forall2 {A B : Type} {R : A → B → Prop} {P : A → A → Prop}
    {Q : B → B → Prop} (hc : ∀ a b a2 b2, R a b → R a2 b2 → P a a2 → Q b b2) :
    ∀ {l1 : List A} {l2 : List B}, List.Forall₂ R l1 l2 → l1.Pairwise P →
      l2.Pairwise Q := by
  intro l1 l2 hf
  induction hf with
  | nil => intro _; exact .nil
  | cons hR hf2 ih =>
    intro hp
    rcases List.pairwise_cons.mp hp with ⟨hhead, htail⟩
    refine List.pairwise_cons.mpr ⟨?_, ih htail⟩
    intro b2 hb2
    obtain ⟨a2, ha2, hR2⟩ := forall2_mem_right hf2 b2 hb2
    exact hc _ _ _ _ hR hR2 (hhead a2 ha2)

/-! Support lemmas for the individual claims. -/

/-- The payload the parser hands to the JSON decoder: the `[7:-3]` slice of the
stripped text when the known fence is present, the raw text otherwise. -/
def unwrapReply (text : List Char) : List Char :=
  if fenceOpen.isPrefixOf (stripChars text) then sliceSeven (stripChars text) else text

def fenceClose : List Char := "```".data

theorem parse_eq_unwrap (jl : List Char → Option PyVal) (text : List Char) :
    parse_gemini_response jl text = jl (unwrapReply text) := by
  unfold parse_gemini_response unwrapReply
  split
  · rfl
  · rfl

/-- Eligibility check of line 183: at least two parsed indicators. -/
def eligibleRow (r : CompRow) : Bool := Nat.ble 2 (parse_indicators r.indicators).length

theorem eligibleRow_iff {r : CompRow} :
    eligibleRow r = true ↔ ¬ (parse_indicators r.indicators).length < 2 := by
  unfold eligibleRow
  rw [Nat.ble_eq]
  omega

theorem stepAttempt_calls (jl : List Char → Option PyVal)
    (oracle : List Char → ℕ → Outcome) (row : CompRow) (st : BatchState) (j : ℕ) :
    (stepAttempt jl oracle row st j).calls = st.calls + 1 := rfl

theorem stepAttempt_skipped (jl : List Char → Option PyVal)
    (oracle : List Char → ℕ → Outcome) (row : CompRow) (st : BatchState) (j : ℕ) :
    (stepAttempt jl oracle row st j).skipped = st.skipped := rfl

theorem foldl_attempts_calls (jl : List Char → Option PyVal)
    (oracle : List Char → ℕ → Outcome) (row : CompRow) :
    ∀ (l : List ℕ) (st : BatchState),
      (l.foldl (stepAttempt jl oracle row) st).calls = st.calls + l.length := by
  intro l
  induction l with
  | nil => intro st; simp
  | cons j js ih =>
    intro st
    rw [List.foldl_cons, ih, stepAttempt_calls]
    simp
    omega

theorem foldl_attempts_skipped (jl : List Char → Option PyVal)
    (oracle : List Char → ℕ → Outcome) (row : CompRow) :
    ∀ (l : List ℕ) (st : BatchState),
      (l.foldl (stepAttempt jl oracle row) st).skipped = st.skipped := by
  intro l
  induction l with
  | nil => intro st; rfl
  | cons j js ih =>
    intro st
    rw [List.foldl_cons, ih, stepAttempt_skipped]

theorem processRow_calls (jl : List Char → Option PyVal)
    (oracle : List Char → ℕ → Outcome) (st : BatchState) (row : CompRow) :
    (processRow jl oracle st row).calls =
      st.calls + (if eligibleRow row then 5 else 0) := by
  unfold processRow
  by_cases hc : (parse_indicators row.indicators).length < 2
  · have he : eligibleRow row = false := by
      cases hb : eligibleRow row
      · rfl
      · exact absurd hc (eligibleRow_iff.mp hb)
    simp [hc, he]
  · have he : eligibleRow row = true := by
      cases hb : eligibleRow row
      · exfalso
        apply hc
        by_contra h2
        rw [eligibleRow_iff.mpr h2] at hb
        cases hb
      · rfl
    simp [hc, he, foldl_attempts_calls]

theorem processRow_skipped (jl : List Char → Option PyVal)
    (oracle : List Char → ℕ → Outcome) (st : BatchState) (row : CompRow) :
    (processRow jl oracle st row).skipped =
      st.skipped ++ (if eligibleRow row then [] else [row.name]) := by
  unfold processRow
  by_cases hc : (parse_indicators row.indicators).length < 2
  · have he : eligibleRow row = false := by
      cases hb : eligibleRow row
      · rfl
      · exact absurd hc (eligibleRow_iff.mp hb)
    simp [hc, he]
  · have he : eligibleRow row = true := by
      cases hb : eligibleRow row
      · exfalso
        apply hc
        by_contra h2
        rw [eligibleRow_iff.mpr h2] at hb
        cases hb
      · rfl
    simp [hc, he, foldl_attempts_skipped]

theorem foldl_attempts_append (jl : List Char → Option PyVal)
    (oracle : List Char → ℕ → Outcome) (row : CompRow) :
    ∀ (l : List ℕ) (st : BatchState), ∃ tail,
      (l.foldl (stepAttempt jl oracle row) st).results = st.results ++ tail := by
  intro l
  induction l with
  | nil => intro st; exact ⟨[], by simp⟩
  | cons j js ih =>
    intro st
    obtain ⟨tail, htail⟩ := ih (stepAttempt jl oracle row st j)
    refine ⟨(runAttempt jl oracle row j st.calls).1.toList ++ tail, ?_⟩
    rw [List.foldl_cons, htail]
    show (stepAttempt jl oracle row st j).results ++ tail = _
    simp [stepAttempt, List.append_assoc]

theorem mem_dedupKeys {k : List Char × List Char} :
    ∀ {l : List (List Char × List Char)}, k ∈ dedupKeys l ↔ k ∈ l := by
  intro l
  induction l with
  | nil => simp [dedupKeys]
  | cons k2 ks ih =>
    by_cases hmem : k2 ∈ ks
    · simp only [dedupKeys, hmem, if_true, ih, List.mem_cons]
      constructor
      · exact Or.inr
      · rintro (rfl | h)
        · exact hmem
        · exact h
    · simp only [dedupKeys, hmem, if_false, List.mem_cons, ih]

theorem strLt_trans :
    ∀ (a b c : List Char), strLt a b = true → strLt b c = true → strLt a c = true := by
  intro a
  induction a with
  | nil =>
    intro b c hab hbc
    cases b with
    | nil => simp [strLt] at hab
    | cons y bs =>
      cases c with
      | nil => simp [strLt] at hbc
      | cons z cs => simp [strLt]
  | cons x as ih =>
    intro b c hab hbc
    cases b with
    | nil => simp [strLt] at hab
    | cons y bs =>
      cases c with
      | nil => simp [strLt] at hbc
      | cons z cs =>
        simp only [strLt] at hab hbc ⊢
        by_cases hxy : x < y
        · by_cases hyz : y < z
          · simp [lt_trans hxy hyz]
          · by_cases hzy : z < y
            · simp [strLt, hzy] at hbc
              exact absurd hbc hyz
            · have hyzq : y = z := le_antisymm (not_lt.mp hzy) (not_lt.mp hyz)
              subst hyzq
              simp [hxy]
        · by_cases hyx : y < x
          · simp [hxy, hyx] at hab
          · have hxyq : x = y := le_antisymm (not_lt.mp hyx) (not_lt.mp hxy)
            subst hxyq
            simp only [lt_irrefl, if_false] at hab
            by_cases hyz : x < z
            · simp [hyz]
            · by_cases hzy : z < x
              · simp [hzy] at hbc
                exact absurd hbc hyz
              · have hq : x = z := le_antisymm (not_lt.mp hzy) (not_lt.mp hyz)
                subst hq
                simp only [lt_irrefl, if_false] at hbc ⊢
                exact ih bs cs hab hbc

theorem strLt_total3 :
    ∀ (a b : List Char), strLt a b = true ∨ strLt b a = true ∨ a = b := by
  intro a
  induction a with
  | nil =>
    intro b
    cases b with
    | nil => exact Or.inr (Or.inr rfl)
    | cons y bs => exact Or.inl (by simp [strLt])
  | cons x as ih =>
    intro b
    cases b with
    | nil => exact Or.inr (Or.inl (by simp [strLt]))
    | cons y bs =>
      rcases lt_trichotomy x y with h | h | h
      · exact Or.inl (by simp [strLt, h])
      · subst h
        rcases ih bs with h2 | h2 | h2
        · exact Or.inl (by simp [strLt, h2])
        · exact Or.inr (Or.inl (by simp [strLt, h2]))
        · exact Or.inr (Or.inr (by rw [h2]))
      · exact Or.inr (Or.inl (by simp [strLt, h]))

theorem keyLe_iff {k1 k2 : List Char × List Char} :
    keyLe k1 k2 = true ↔
      strLt k1.1 k2.1 = true ∨ (k1.1 = k2.1 ∧ (strLt k1.2 k2.2 = true ∨ k1.2 = k2.2)) := by
  simp [keyLe, Bool.or_eq_true, Bool.and_eq_true, beq_iff_eq]

theorem keyLe_total : ∀ k1 k2 : List Char × List Char,
    keyLe k1 k2 = true ∨ keyLe k2 k1 = true := by
  intro k1 k2
  rcases strLt_total3 k1.1 k2.1 with h | h | h
  · exact Or.inl (keyLe_iff.mpr (Or.inl h))
  · exact Or.inr (keyLe_iff.mpr (Or.inl h))
  · rcases strLt_total3 k1.2 k2.2 with h2 | h2 | h2
    · exact Or.inl (keyLe_iff.mpr (Or.inr ⟨h, Or.inl h2⟩))
    · exact Or.inr (keyLe_iff.mpr (Or.inr ⟨h.symm, Or.inl h2⟩))
    · exact Or.inl (keyLe_iff.mpr (Or.inr ⟨h, Or.inr h2⟩))

theorem keyLe_trans : ∀ a b c : List Char × List Char,
    keyLe a b = true → keyLe b c = true → keyLe a c = true := by
  intro a b c hab hbc
  rcases keyLe_iff.mp hab with h1 | ⟨h1, h1b⟩
  · rcases keyLe_iff.mp hbc with h2 | ⟨h2, h2b⟩
    · exact keyLe_iff.mpr (Or.inl (strLt_trans _ _ _ h1 h2))
    · exact keyLe_iff.mpr (Or.inl (h2 ▸ h1))
  · rcases keyLe_iff.mp hbc with h2 | ⟨h2, h2b⟩
    · exact keyLe_iff.mpr (Or.inl (h1 ▸ h2))
    · refine keyLe_iff.mpr (Or.inr ⟨h1.trans h2, ?_⟩)
      rcases h1b with h1b | h1b
      · rcases h2b with h2b | h2b
        · exact Or.inl (strLt_trans _ _ _ h1b h2b)
        · exact Or.inl (h2b ▸ h1b)
      · rcases h2b with h2b | h2b
        · exact Or.inl (h1b ▸ h2b)
        · exact Or.inr (h1b.trans h2b)

/-! Shape conditions under which flattening cannot raise: every *present*
optional field has the shape the code expects.  (Absent fields are always
fine — that is the tolerance the spec asserts.) -/

/-- The `options` value inside `sjt`, when present, must be a list of dicts. -/
def goodOptions : Option PyVal → Prop
  | Option.none => True
  | some (.list xs) => ∀ x ∈ xs, ∃ okvs, x = .dict okvs
  | some _ => False

/-- The `sjt` value, when present, must be a dict with well-shaped options. -/
def goodSjt : Option PyVal → Prop
  | Option.none => True
  | some (.dict skvs) => goodOptions (skvs.lookup "options")
  | some _ => False

/-- The `sjt_indicator_mapping` value, when present, must be a list with at
least the two entries the code indexes. -/
def goodMapping : Option PyVal → Prop
  | Option.none => True
  | some (.list xs) => 2 ≤ xs.length
  | some _ => False

/-- A JSON-decoded reply on which flattening is guaranteed not to raise. -/
def WellShaped : PyVal → Prop
  | .dict kvs =>
    goodMapping (kvs.lookup "sjt_indicator_mapping") ∧ goodSjt (kvs.lookup "sjt")
  | _ => False

/-- The per-option cell extraction of lines 222-224. -/
theorem option_cell_score {o : PyVal} {cell : PyVal × PyVal}
    (h : (do
        let t ← pyGet o "option_text" PyVal.none
        let l ← pyGet o "score_level" PyVal.none
        pure (t, l) : Except PyErr (PyVal × PyVal)) = .ok cell) :
    scoreMap cell.2 = scoreKeyPure o := by
  cases o with
  | dict okvs =>
    simp only [pyGet, bind_ok_e] at h
    cases h
    simp [scoreKeyPure, dictGetRaw]
  | none => simp [pyGet, bind_error_e] at h
  | bool b => simp [pyGet, bind_error_e] at h
  | num n => simp [pyGet, bind_error_e] at h
  | str s => simp [pyGet, bind_error_e] at h
  | list xs => simp [pyGet, bind_error_e] at h

theorem mapping_index_ok {mo : Option PyVal} (hm : goodMapping mo) :
    ∃ im1 im2,
      pyIndex (mo.getD (.list [.str "", .str ""])) 0 = .ok im1 ∧
      pyIndex (mo.getD (.list [.str "", .str ""])) 1 = .ok im2 ∧
      (mo = Option.none → im1 = .str "" ∧ im2 = .str "") := by
  cases mo with
  | none =>
    refine ⟨.str "", .str "", ?_, ?_, fun _ => ⟨rfl, rfl⟩⟩
    · simp [pyIndex]
    · simp [pyIndex]
  | some mv =>
    cases mv with
    | list xs =>
      cases xs with
      | nil => simp [goodMapping] at hm
      | cons a xs1 =>
        cases xs1 with
        | nil => simp [goodMapping] at hm
        | cons b rest =>
          refine ⟨a, b, ?_, ?_, fun habs => by cases habs⟩
          · simp [pyIndex]
          · simp [pyIndex]
    | none => exact hm.elim
    | bool v => exact hm.elim
    | num v => exact hm.elim
    | str v => exact hm.elim
    | dict v => exact hm.elim

theorem flatten_eval (kvs : List (String × PyVal)) (j : ℕ) (im1 im2 : PyVal)
    (h0 : pyIndex ((kvs.lookup "sjt_indicator_mapping").getD
            (.list [.str "", .str ""])) 0 = .ok im1)
    (h1 : pyIndex ((kvs.lookup "sjt_indicator_mapping").getD
            (.list [.str "", .str ""])) 1 = .ok im2)
    (hs : goodSjt (kvs.lookup "sjt")) :
    ∃ r, flatten (.dict kvs) j = .ok r ∧
      r.competency = (kvs.lookup "competency_name").getD .none ∧
      r.indicatorMapping1 = im1 ∧ r.indicatorMapping2 = im2 ∧
      r.rationale = (kvs.lookup "validation_rationale").getD .none ∧
      (kvs.lookup "sjt" = Option.none →
        r.situation = .none ∧ r.question = .none ∧ r.options = []) := by
  rcases hss : kvs.lookup "sjt" with _ | sv
  · have heval : ∃ r, flatten (.dict kvs) j = .ok r := by
      simp only [flatten, pyGet, hss, h0, h1, bind_ok_e, Option.getD_none, Option.getD_some,
        List.lookup, pyIter, mapE, sortByKey, sortLe]
      exact ⟨_, rfl⟩
    obtain ⟨r, hr⟩ := heval
    have hr2 := hr
    simp only [flatten, pyGet, hss, h0, h1, bind_ok_e, Option.getD_none, Option.getD_some,
      List.lookup, pyIter, mapE, sortByKey, sortLe] at hr2
    cases hr2
    exact ⟨_, hr, rfl, rfl, rfl, rfl, fun _ => ⟨rfl, rfl, rfl⟩⟩
  · have hs2 : goodSjt (some sv) := by rw [← hss]; exact hs
    cases sv with
    | dict skvs =>
      have hs3 : goodOptions (skvs.lookup "options") := hs2
      rcases ho : skvs.lookup "options" with _ | ov
      · have heval : ∃ r, flatten (.dict kvs) j = .ok r := by
          simp only [flatten, pyGet, hss, h0, h1, bind_ok_e, Option.getD_none, Option.getD_some, ho,
            pyIter, mapE, sortByKey, sortLe]
          exact ⟨_, rfl⟩
        obtain ⟨r, hr⟩ := heval
        have hr2 := hr
        simp only [flatten, pyGet, hss, h0, h1, bind_ok_e, Option.getD_none, Option.getD_some, ho,
          pyIter, mapE, sortByKey, sortLe] at hr2
        cases hr2
        exact ⟨_, hr, rfl, rfl, rfl, rfl, fun habs => by cases habs⟩
      · have hs4 : goodOptions (some ov) := by rw [← ho]; exact hs3
        cases ov with
        | list xs =>
          have hdicts : ∀ x ∈ xs, ∃ okvs, x = .dict okvs := hs4
          obtain ⟨ks, hks⟩ := mapE_ok_of_all
            (fun x => pyGet x "score_level" PyVal.none) xs
            (fun x hx => by
              obtain ⟨okvs, hx2⟩ := hdicts x hx
              rw [hx2]
              exact ⟨_, rfl⟩)
          obtain ⟨cells, hcells⟩ := mapE_ok_of_all
            (fun o => (do
              let t ← pyGet o "option_text" PyVal.none
              let l ← pyGet o "score_level" PyVal.none
              pure (t, l) : Except PyErr (PyVal × PyVal)))
            (sortByKey scoreKeyPure xs)
            (fun o ho2 => by
              have hmem : o ∈ xs := by
                rw [sortByKey] at ho2
                exact mem_sortLe_iff.mp ho2
              obtain ⟨okvs, hoe⟩ := hdicts o hmem
              rw [hoe]
              exact ⟨_, rfl⟩)
          simp only [pyGet] at hks hcells
          have heval : ∃ r, flatten (.dict kvs) j = .ok r := by
            simp only [flatten, pyGet, hss, h0, h1, bind_ok_e, Option.getD_none, Option.getD_some, ho,
              pyIter, hks, hcells]
            exact ⟨_, rfl⟩
          obtain ⟨r, hr⟩ := heval
          have hr2 := hr
          simp only [flatten, pyGet, hss, h0, h1, bind_ok_e, Option.getD_none, Option.getD_some, ho,
            pyIter, hks, hcells] at hr2
          cases hr2
          exact ⟨_, hr, rfl, rfl, rfl, rfl, fun habs => by cases habs⟩
        | none => exact hs4.elim
        | bool v => exact hs4.elim
        | num v => exact hs4.elim
        | str v => exact hs4.elim
        | dict v => exact hs4.elim
    | none => exact hs2.elim
    | bool v => exact hs2.elim
    | num v => exact hs2.elim
    | str v => exact hs2.elim
    | list v => exact hs2.elim

theorem flatten_wellShaped_ok (parsed : PyVal) (j : ℕ) (h : WellShaped parsed) :
    ∃ r, flatten parsed j = Except.ok r ∧
      (dictGetRaw parsed "competency_name" = Option.none → r.competency = .none) ∧
      (dictGetRaw parsed "sjt_indicator_mapping" = Option.none →
        r.indicatorMapping1 = .str "" ∧ r.indicatorMapping2 = .str "") ∧
      (dictGetRaw parsed "sjt" = Option.none →
        r.situation = .none ∧ r.question = .none ∧ r.options = []) ∧
      (dictGetRaw parsed "validation_rationale" = Option.none → r.rationale = .none) := by
  cases parsed with
  | dict kvs =>
    obtain ⟨hm, hs⟩ := h
    obtain ⟨im1, im2, h0, h1, hdefault⟩ := mapping_index_ok hm
    obtain ⟨r, hr, hcomp, him1, him2, hrat, hsjt⟩ := flatten_eval kvs j im1 im2 h0 h1 hs
    refine ⟨r, hr, ?_, ?_, ?_, ?_⟩
    · intro habs
      rw [show dictGetRaw (.dict kvs) "competency_name" =
        kvs.lookup "competency_name" from rfl] at habs
      rw [hcomp, habs]
      rfl
    · intro habs
      rw [show dictGetRaw (.dict kvs) "sjt_indicator_mapping" =
        kvs.lookup "sjt_indicator_mapping" from rfl] at habs
      obtain ⟨e1, e2⟩ := hdefault habs
      exact ⟨him1.trans e1, him2.trans e2⟩
    · intro habs
      rw [show dictGetRaw (.dict kvs) "sjt" = kvs.lookup "sjt" from rfl] at habs
      exact hsjt habs
    · intro habs
      rw [show dictGetRaw (.dict kvs) "validation_rationale" =
        kvs.lookup "validation_rationale" from rfl] at habs
      rw [hrat, habs]
      rfl
  | none => exact h.elim
  | bool v => exact h.elim
  | num v => exact h.elim
  | str v => exact h.elim
  | list v => exact h.elim

theorem pyGet_dict (kvs : List (String × PyVal)) (k : String) (d : PyVal) :
    pyGet (.dict kvs) k d = .ok ((kvs.lookup k).getD d) := rfl

theorem ble_of_le {m n : ℕ} (h : m ≤ n) : Nat.ble m n = true := by
  rw [Nat.ble_eq]
  exact h

theorem le_of_ble {m n : ℕ} (h : Nat.ble m n = true) : m ≤ n := by
  rw [Nat.ble_eq] at h
  exact h

/-- Rows assembled from a key-sorted option list have their (text, label) cells
in key order. -/
theorem cells_pairwise {optItems : List PyVal} {cells : List (PyVal × PyVal)}
    (hcl : mapE (fun o => (do
        let t ← pyGet o "option_text" PyVal.none
        let l ← pyGet o "score_level" PyVal.none
        pure (t, l) : Except PyErr (PyVal × PyVal)))
      (sortByKey scoreKeyPure optItems) = .ok cells) :
    cells.Pairwise (fun a b => scoreMap a.2 ≤ scoreMap b.2) := by
  have hf := mapE_forall2 _ hcl
  have hp : (sortByKey scoreKeyPure optItems).Pairwise
      (fun a b => Nat.ble (scoreKeyPure a) (scoreKeyPure b) = true) := by
    rw [sortByKey]
    refine pairwise_sortLe ?_ ?_ _
    · intro a b
      rcases Nat.le_total (scoreKeyPure a) (scoreKeyPure b) with h | h
      · exact Or.inl (ble_of_le h)
      · exact Or.inr (ble_of_le h)
    · intro a b c h1 h2
      exact ble_of_le (le_trans (le_of_ble h1) (le_of_ble h2))
  refine pairwise_of_forall2 ?_ hf hp
  intro o cell o2 cell2 h1 h2 hP
  have e1 := option_cell_score h1
  have e2 := option_cell_score h2
  rw [e1, e2]
  exact le_of_ble hP

/-- Any successfully flattened row has its options sorted by the fixed
category priority. -/
theorem flatten_options_sorted (parsed : PyVal) (j : ℕ) (r : ResultRow)
    (h : flatten parsed j = .ok r) :
    r.options.Pairwise (fun a b => scoreMap a.2 ≤ scoreMap b.2) := by
  cases parsed with
  | dict kvs =>
    simp only [flatten, pyGet_dict, bind_ok_e] at h
    cases hi1 : pyIndex ((kvs.lookup "sjt_indicator_mapping").getD
        (.list [.str "", .str ""])) 0 with
    | error e => rw [hi1] at h; simp [bind_error_e] at h
    | ok im1 =>
      rw [hi1, bind_ok_e] at h
      cases hi2 : pyIndex ((kvs.lookup "sjt_indicator_mapping").getD
          (.list [.str "", .str ""])) 1 with
      | error e => rw [hi2] at h; simp [bind_error_e] at h
      | ok im2 =>
        rw [hi2, bind_ok_e] at h
        cases hsv : (kvs.lookup "sjt").getD (.dict []) with
        | dict skvs =>
          rw [hsv] at h
          simp only [pyGet_dict, bind_ok_e] at h
          cases hov : (skvs.lookup "options").getD (.list []) with
          | list xs =>
            rw [hov] at h
            simp only [pyIter, bind_ok_e] at h
            cases hks : mapE (fun x => pyGet x "score_level" PyVal.none) xs with
            | error e => rw [hks] at h; simp [bind_error_e] at h
            | ok ks =>
              rw [hks, bind_ok_e] at h
              cases hcl : mapE (fun o => (do
                  let t ← pyGet o "option_text" PyVal.none
                  let l ← pyGet o "score_level" PyVal.none
                  pure (t, l) : Except PyErr (PyVal × PyVal)))
                (sortByKey scoreKeyPure xs) with
              | error e => rw [hcl] at h; simp [bind_error_e] at h
              | ok cells =>
                rw [hcl, bind_ok_e] at h
                cases h
                exact cells_pairwise hcl
          | str sv =>
            rw [hov] at h
            simp only [pyIter, bind_ok_e] at h
            cases hks : mapE (fun x => pyGet x "score_level" PyVal.none)
                (sv.data.map fun c => PyVal.str (String.mk [c])) with
            | error e => rw [hks] at h; simp [bind_error_e] at h
            | ok ks =>
              rw [hks, bind_ok_e] at h
              cases hcl : mapE (fun o => (do
                  let t ← pyGet o "option_text" PyVal.none
                  let l ← pyGet o "score_level" PyVal.none
                  pure (t, l) : Except PyErr (PyVal × PyVal)))
                (sortByKey scoreKeyPure
                  (sv.data.map fun c => PyVal.str (String.mk [c]))) with
              | error e => rw [hcl] at h; simp [bind_error_e] at h
              | ok cells =>
                rw [hcl, bind_ok_e] at h
                cases h
                exact cells_pairwise hcl
          | dict dkvs =>
            rw [hov] at h
            simp only [pyIter, bind_ok_e] at h
            cases hks : mapE (fun x => pyGet x "score_level" PyVal.none)
                (dkvs.map fun kv => PyVal.str kv.1) with
            | error e => rw [hks] at h; simp [bind_error_e] at h
            | ok ks =>
              rw [hks, bind_ok_e] at h
              cases hcl : mapE (fun o => (do
                  let t ← pyGet o "option_text" PyVal.none
                  let l ← pyGet o "score_level" PyVal.none
                  pure (t, l) : Except PyErr (PyVal × PyVal)))
                (sortByKey scoreKeyPure (dkvs.map fun kv => PyVal.str kv.1)) with
              | error e => rw [hcl] at h; simp [bind_error_e] at h
              | ok cells =>
                rw [hcl, bind_ok_e] at h
                cases h
                exact cells_pairwise hcl
          | none => rw [hov] at h; simp [pyIter, bind_error_e] at h
          | bool v => rw [hov] at h; simp [pyIter, bind_error_e] at h
          | num v => rw [hov] at h; simp [pyIter, bind_error_e] at h
        | none => rw [hsv] at h; simp [pyGet, bind_error_e] at h
        | bool v => rw [hsv] at h; simp [pyGet, bind_error_e] at h
        | num v => rw [hsv] at h; simp [pyGet, bind_error_e] at h
        | str v => rw [hsv] at h; simp [pyGet, bind_error_e] at h
        | list v => rw [hsv] at h; simp [pyGet, bind_error_e] at h
  | none => simp [flatten, pyGet, bind_error_e] at h
  | bool v => simp [flatten, pyGet, bind_error_e] at h
  | num v => simp [flatten, pyGet, bind_error_e] at h
  | str v => simp [flatten, pyGet, bind_error_e] at h
  | list v => simp [flatten, pyGet, bind_error_e] at h

/-- The exception condition of one attempt after a reply `t`: the parse
succeeds with a truthy value whose flattening raises. -/
def flattenRaises (jl : List Char → Option PyVal) (t : List Char) (j : ℕ) : Prop :=
  ∃ v e, parse_gemini_response jl t = some v ∧ pyTruthy v = true ∧
    flatten v j = .error e

/-! Claim theorems. -/

/-- Claim C4: for every raw reply text that is a valid JSON payload, optionally
wrapped in the known ```json fence decoration, `parse_gemini_response` returns
exactly the value obtained by JSON-decoding the unwrapped payload `mid` (for an
unwrapped reply, `mid` is the text itself). -/
theorem C4_parser_exact (jl : List Char → Option PyVal) (text mid : List Char)
    (h : stripChars text = fenceOpen ++ (mid ++ fenceClose) ∨
         (fenceOpen.isPrefixOf (stripChars text) = false ∧ mid = text)) :
    parse_gemini_response jl text = jl mid := by
  rcases h with h | ⟨hf, rfl⟩
  · have hpre : fenceOpen.isPrefixOf (stripChars text) = true :=
      prefixOf_iff.mpr ⟨mid ++ fenceClose, h.symm⟩
    have hslice : sliceSeven (stripChars text) = mid := by
      rw [h]
      unfold sliceSeven
      have h7 : fenceOpen.length = 7 := rfl
      have hdrop : (fenceOpen ++ (mid ++ fenceClose)).drop 7 = mid ++ fenceClose := by
        rw [← h7, List.drop_left]
      rw [hdrop]
      have hlen : (fenceOpen ++ (mid ++ fenceClose)).length - 10 = mid.length := by
        simp only [List.length_append, h7]
        have h3 : fenceClose.length = 3 := rfl
        rw [h3]
        omega
      rw [hlen]
      exact List.take_left mid fenceClose
    unfold parse_gemini_response
    rw [hpre, hslice]
    rfl
  · unfold parse_gemini_response
    rw [hf]
    rfl

/-- Claim C4 witness at a concrete fenced reply. -/
theorem C4_witness :
    (stripChars " ```json\n1\n``` ".data = fenceOpen ++ ("\n1\n".data ++ fenceClose)) ∧
    parse_gemini_response (fun s => some (.str (String.mk s))) " ```json\n1\n``` ".data =
      (fun s => some (PyVal.str (String.mk s))) "\n1\n".data :=
  ⟨by decide, C4_parser_exact (fun s => some (.str (String.mk s)))
    " ```json\n1\n``` ".data "\n1\n".data (Or.inl (by decide))⟩

/-- Claim C5: for every raw reply text that is not a valid structured payload
(the decoder fails on the payload the parser extracts), `parse_gemini_response`
returns `None` rather than raising, the attempt contributes no `ResultRow` and
still performs its courtesy sleep, and the batch state only advances its call
counter, leaving the results untouched, so the loop continues with the next
attempt. -/
theorem C5_parse_failure (jl : List Char → Option PyVal) (t : List Char)
    (h : jl (unwrapReply t) = Option.none) :
    parse_gemini_response jl t = Option.none ∧
    (∀ (oracle : List Char → ℕ → Outcome) (row : CompRow) (j idx : ℕ),
      oracle (renderPrompt row.name row.theme (parse_indicators row.indicators)) idx =
        Outcome.reply t →
      runAttempt jl oracle row j idx = (Option.none, true)) ∧
    (∀ (oracle : List Char → ℕ → Outcome) (row : CompRow) (j : ℕ) (st : BatchState),
      oracle (renderPrompt row.name row.theme (parse_indicators row.indicators)) st.calls =
        Outcome.reply t →
      (stepAttempt jl oracle row st j).results = st.results ∧
      (stepAttempt jl oracle row st j).calls = st.calls + 1) := by
  have hparse : parse_gemini_response jl t = Option.none := by
    rw [parse_eq_unwrap, h]
  refine ⟨hparse, ?_, ?_⟩
  · intro oracle row j idx ho
    simp only [runAttempt, ho, hparse]
  · intro oracle row j st ho
    have hrun : runAttempt jl oracle row j st.calls = (Option.none, true) := by
      simp only [runAttempt, ho, hparse]
    constructor
    · show st.results ++ (runAttempt jl oracle row j st.calls).1.toList = st.results
      rw [hrun]
      simp
    · rfl

/-- Claim C5 witness: a decoder that always fails, on the reply "x". -/
theorem C5_witness :
    ((fun _ : List Char => (Option.none : Option PyVal)) (unwrapReply "x".data) =
      Option.none) ∧
    parse_gemini_response (fun _ => Option.none) "x".data = Option.none :=
  ⟨rfl, (C5_parse_failure (fun _ => Option.none) "x".data rfl).1⟩

/-- Claim C6: every grouped record with fewer than 2 parsed indicators is
excluded from generation and appended to the skip report, all other records
get exactly 5 generation calls, and the total number of service calls equals
5 times the number of eligible records. -/
theorem C6_eligibility_and_call_count (jl : List Char → Option PyVal)
    (oracle : List Char → ℕ → Outcome) (rows : List CompRow) :
    (runBatch jl oracle rows).calls = 5 * (rows.filter eligibleRow).length ∧
    (runBatch jl oracle rows).skipped =
      (rows.filter fun r => ! eligibleRow r).map CompRow.name := by
  have aux : ∀ (rs : List CompRow) (st : BatchState),
      (rs.foldl (processRow jl oracle) st).calls =
        st.calls + 5 * (rs.filter eligibleRow).length ∧
      (rs.foldl (processRow jl oracle) st).skipped =
        st.skipped ++ (rs.filter fun r => ! eligibleRow r).map CompRow.name := by
    intro rs
    induction rs with
    | nil => intro st; simp
    | cons row rest ih =>
      intro st
      rw [List.foldl_cons]
      obtain ⟨ih1, ih2⟩ := ih (processRow jl oracle st row)
      constructor
      · rw [ih1, processRow_calls]
        cases he : eligibleRow row
        · simp [List.filter_cons, he]
        · simp only [List.filter_cons, he, if_true, List.length_cons]
          omega
      · rw [ih2, processRow_skipped]
        cases he : eligibleRow row
        · simp [List.filter_cons, he]
        · simp [List.filter_cons, he]
  have h := aux rows initState
  simpa [initState, runBatch] using h

/-- Claim C7: when a required column is missing from the uploaded table, the
run fails with the schema error path, no records are processed and zero
generation-service calls are made. -/
theorem C7_schema_error (jl : List Char → Option PyVal)
    (oracle : List Char → ℕ → Outcome) (tbl : RawTable) (c : String)
    (hc : c ∈ requiredColumns) (hmiss : tbl.columns.contains c = false) :
    appRun jl oracle tbl = Option.none ∧ callsMade (appRun jl oracle tbl) = 0 := by
  have hall : requiredColumns.all (fun c2 => tbl.columns.contains c2) = false := by
    cases hb : requiredColumns.all fun c2 => tbl.columns.contains c2
    · rfl
    · have := List.all_eq_true.mp hb c hc
      rw [hmiss] at this
      cases this
  constructor
  · unfold appRun
    rw [hall]
    simp
  · unfold callsMade appRun
    rw [hall]
    simp

/-- Claim C7 witness: a table with only a Theme column. -/
theorem C7_witness :
    ("Competency Name" ∈ requiredColumns ∧
      (RawTable.mk ["Theme"] []).columns.contains "Competency Name" = false) ∧
    appRun (fun _ => Option.none) (fun _ _ => Outcome.raise)
      (RawTable.mk ["Theme"] []) = Option.none ∧
    callsMade (appRun (fun _ => Option.none) (fun _ _ => Outcome.raise)
      (RawTable.mk ["Theme"] [])) = 0 :=
  ⟨⟨by decide, by decide⟩,
    C7_schema_error (fun _ => Option.none) (fun _ _ => Outcome.raise)
      (RawTable.mk ["Theme"] []) "Competency Name" (by decide) (by decide)⟩

/-- Claim C9: the pipeline is deterministic in its inputs — two runs over the
same grouped records and the same service replies produce identical batch
states (same rows, same order) — and aggregation is append-only: processing a
record only ever appends to the accumulated results. -/
theorem C9_determinism_append_only (jl : List Char → Option PyVal)
    (o1 o2 : List Char → ℕ → Outcome) (rows : List CompRow)
    (h : ∀ p n, o1 p n = o2 p n) :
    runBatch jl o1 rows = runBatch jl o2 rows ∧
    ∀ (st : BatchState) (row : CompRow), ∃ tail,
      (processRow jl o1 st row).results = st.results ++ tail := by
  constructor
  · have ho : o1 = o2 := funext fun p => funext fun n => h p n
    rw [ho]
  · intro st row
    unfold processRow
    by_cases hc : (parse_indicators row.indicators).length < 2
    · exact ⟨[], by simp [hc]⟩
    · simp only [hc, if_false]
      exact foldl_attempts_append jl o1 row _ st

/-- Claim C9 witness at a concrete oracle pair. -/
theorem C9_witness :
    runBatch (fun _ => Option.none) (fun _ _ => Outcome.raise) [] =
      runBatch (fun _ => Option.none) (fun _ _ => Outcome.raise) [] :=
  (C9_determinism_append_only (fun _ => Option.none) (fun _ _ => Outcome.raise)
    (fun _ _ => Outcome.raise) [] (fun _ _ => rfl)).1

/-- Claim C10: after preprocessing, the grouped competency records are emitted
(and hence processed) in ascending lexicographic order of their
(Competency Name, Theme) key — the order pandas `groupby` sorts keys into, not
input order — and the emitted key set is exactly the set of keys of the kept
input rows, so two row groups sharing a name but differing in theme yield two
separate records. -/
theorem C10_sorted_grouping (rows : List RawRow) :
    ((preprocess rows).map fun r => (r.name, r.theme)).Pairwise
      (fun a b => keyLe a b = true) ∧
    ∀ k, (k ∈ (preprocess rows).map fun r => (r.name, r.theme)) ↔
      k ∈ keptKeys rows := by
  have hmap : (preprocess rows).map (fun r => (r.name, r.theme)) =
      sortLe keyLe (dedupKeys (keptKeys rows)) := by
    unfold preprocess
    rw [List.map_map]
    have hid : ((fun r : CompRow => (r.name, r.theme)) ∘
        (fun k : List Char × List Char =>
          ({ name := k.1, theme := k.2,
             indicators := joinNl ((keptRows rows).filterMap fun r =>
               if r.name == some k.1 && r.theme == some k.2 then r.indicators
               else Option.none) } : CompRow))) = id := funext fun k => rfl
    rw [hid, List.map_id]
  constructor
  · rw [hmap]
    exact pairwise_sortLe keyLe_total keyLe_trans _
  · intro k
    rw [hmap, mem_sortLe_iff, mem_dedupKeys]

/-- Claim C2 (counterexample): flattening does raise for some JSON-decoded
dictionary inputs — a present `sjt_indicator_mapping` that is an empty list
makes the `[0]` subscript of line 211 raise IndexError. -/
theorem C2_counterexample :
    flatten (.dict [("sjt_indicator_mapping", .list [])]) 0 = .error .indexError := rfl

/-- Claim C2 (amended): flattening tolerates missing optional fields — for any
JSON-decoded dictionary whose *present* optional fields are well-shaped,
flattening succeeds, and each absent field yields an empty/absent cell
(`None`, the empty-string mapping defaults, or no option cells); it is not,
however, total on all JSON-decoded dictionaries. -/
theorem C2_missing_fields_tolerated (parsed : PyVal) (j : ℕ) (h : WellShaped parsed) :
    ∃ r, flatten parsed j = Except.ok r ∧
      (dictGetRaw parsed "competency_name" = Option.none → r.competency = .none) ∧
      (dictGetRaw parsed "sjt_indicator_mapping" = Option.none →
        r.indicatorMapping1 = .str "" ∧ r.indicatorMapping2 = .str "") ∧
      (dictGetRaw parsed "sjt" = Option.none →
        r.situation = .none ∧ r.question = .none ∧ r.options = []) ∧
      (dictGetRaw parsed "validation_rationale" = Option.none → r.rationale = .none) :=
  flatten_wellShaped_ok parsed j h

/-- Claim C2 witness: the empty dictionary is well-shaped and flattens with
every optional cell empty. -/
theorem C2_witness :
    WellShaped (.dict []) ∧
    ∃ r, flatten (.dict []) 0 = Except.ok r ∧
      (dictGetRaw (.dict []) "competency_name" = Option.none → r.competency = .none) ∧
      (dictGetRaw (.dict []) "sjt_indicator_mapping" = Option.none →
        r.indicatorMapping1 = .str "" ∧ r.indicatorMapping2 = .str "") ∧
      (dictGetRaw (.dict []) "sjt" = Option.none →
        r.situation = .none ∧ r.question = .none ∧ r.options = []) ∧
      (dictGetRaw (.dict []) "validation_rationale" = Option.none → r.rationale = .none) :=
  ⟨⟨trivial, trivial⟩, C2_missing_fields_tolerated (.dict []) 0 ⟨trivial, trivial⟩⟩

/-- Claim C3 (counterexample): in a batch where every generation call raises,
five calls are made for the single eligible record but the one-second pause
never runs — `time.sleep(1)` sits inside the `try` after the append, so a
raising call skips it — refuting the claim that the pause follows every call. -/
theorem C3_counterexample :
    (runBatch (fun _ => Option.none) (fun _ _ => Outcome.raise)
      [⟨"A".data, "B".data, "a\nb".data⟩]).calls = 5 ∧
    (runBatch (fun _ => Option.none) (fun _ _ => Outcome.raise)
      [⟨"A".data, "B".data, "a\nb".data⟩]).sleeps = 0 ∧
    (runBatch (fun _ => Option.none) (fun _ _ => Outcome.raise)
      [⟨"A".data, "B".data, "a\nb".data⟩]).sleeps ≠
    (runBatch (fun _ => Option.none) (fun _ _ => Outcome.raise)
      [⟨"A".data, "B".data, "a\nb".data⟩]).calls :=
  ⟨rfl, rfl, by decide⟩

/-- Claim C3 (amended): the one-second pause runs after exactly those attempts
in which nothing raises — it runs when the call returns a reply and the
parse-flatten step does not raise (including a parse failure, which just
yields `None`), and it is skipped both when the generation call itself raises
and when flattening the parsed reply raises. -/
theorem C3_sleep_on_no_raise (jl : List Char → Option PyVal)
    (oracle : List Char → ℕ → Outcome) (row : CompRow) (j idx : ℕ) :
    (oracle (renderPrompt row.name row.theme (parse_indicators row.indicators)) idx =
        Outcome.raise → (runAttempt jl oracle row j idx).2 = false) ∧
    ∀ t, oracle (renderPrompt row.name row.theme (parse_indicators row.indicators)) idx =
        Outcome.reply t →
      ((runAttempt jl oracle row j idx).2 = true ↔ ¬ flattenRaises jl t j) := by
  constructor
  · intro h
    simp only [runAttempt, h]
  · intro t h
    simp only [runAttempt, h]
    cases hp : parse_gemini_response jl t with
    | none =>
      simp only [hp]
      constructor
      · rintro - ⟨v, e, hv, -, -⟩
        rw [hp] at hv
        cases hv
      · intro _
        trivial
    | some v =>
      simp only [hp]
      cases htr : pyTruthy v with
      | false =>
        simp only [htr, Bool.false_eq_true, if_false]
        constructor
        · rintro - ⟨v2, e2, hv2, htr2, -⟩
          rw [hp] at hv2
          cases hv2
          rw [htr] at htr2
          cases htr2
        · intro _
          trivial
      | true =>
        simp only [htr, if_true]
        cases hf : flatten v j with
        | ok r =>
          simp only [hf]
          constructor
          · rintro - ⟨v2, e2, hv2, -, hf2⟩
            rw [hp] at hv2
            cases hv2
            rw [hf] at hf2
            cases hf2
          · intro _
            trivial
        | error e =>
          simp only [hf]
          constructor
          · intro hfalse
            exact absurd hfalse (by simp)
          · intro hnr
            exact (hnr ⟨v, e, hp, htr, hf⟩).elim

/-- Claim C3 witness: a raising call sleeps nothing. -/
theorem C3_witness :
    (runAttempt (fun _ => Option.none) (fun _ _ => Outcome.raise)
      (CompRow.mk [] [] []) 0 0).2 = false :=
  (C3_sleep_on_no_raise (fun _ => Option.none) (fun _ _ => Outcome.raise)
    (CompRow.mk [] [] []) 0 0).1 rfl

/-- Claim C8: within every successfully flattened row, the option
(text, category-label) cells appear sorted by the fixed category priority
Positive High (0) < Positive Low (1) < Negative Low (2) < Negative High (3),
with unrecognized or missing labels (priority 99) after all recognized ones;
the statement is universally quantified over rows, so the same rule applies to
every row of a run. -/
theorem C8_option_order (parsed : PyVal) (j : ℕ) (r : ResultRow)
    (h : flatten parsed j = .ok r) :
    r.options.Pairwise (fun a b => scoreMap a.2 ≤ scoreMap b.2) ∧
    r.options.Pairwise (fun a b => scoreMap b.2 < 99 → scoreMap a.2 < 99) := by
  have h1 := flatten_options_sorted parsed j r h
  exact ⟨h1, List.Pairwise.imp (fun hab hlt => lt_of_le_of_lt hab hlt) h1⟩

/-- Claim C8 witness: two options supplied in reversed priority order come out
sorted. -/
theorem C8_witness :
    flatten (PyVal.dict [("sjt", PyVal.dict [("options", PyVal.list
        [PyVal.dict [("option_text", PyVal.str "x"),
                     ("score_level", PyVal.str "Negative High")],
         PyVal.dict [("option_text", PyVal.str "y"),
                     ("score_level", PyVal.str "Positive High")]])])]) 0 =
      Except.ok
        { competency := PyVal.none
          sjtNumber := "SJT " ++ toString (0 + 1)
          indicatorMapping1 := PyVal.str ""
          indicatorMapping2 := PyVal.str ""
          situation := PyVal.none
          question := PyVal.none
          rationale := PyVal.none
          options := [(PyVal.str "y", PyVal.str "Positive High"),
                      (PyVal.str "x", PyVal.str "Negative High")] } ∧
    ([(PyVal.str "y", PyVal.str "Positive High"),
      (PyVal.str "x", PyVal.str "Negative High")].Pairwise
        (fun a b => scoreMap a.2 ≤ scoreMap b.2) ∧
     [(PyVal.str "y", PyVal.str "Positive High"),
      (PyVal.str "x", PyVal.str "Negative High")].Pairwise
        (fun a b => scoreMap b.2 < 99 → scoreMap a.2 < 99)) :=
  ⟨rfl, C8_option_order (PyVal.dict [("sjt", PyVal.dict [("options", PyVal.list
        [PyVal.dict [("option_text", PyVal.str "x"),
                     ("score_level", PyVal.str "Negative High")],
         PyVal.dict [("option_text", PyVal.str "y"),
                     ("score_level", PyVal.str "Positive High")]])])]) 0 _ rfl⟩

/-- Formalisation of "contains no unsubstituted placeholder token of the form
double-open-brace ... double-close-brace": no such token occurs as a substring
for any middle text. -/
def mustacheFree (s : List Char) : Prop :=
  ∀ mid : List Char, hasSubstr ('{' :: '{' :: (mid ++ [ '}', '}' ])) s = false

/-- Claim C1 (counterexample): for a concrete record with 2 indicators the
rendered prompt still contains a placeholder-shaped token — the literal
output-format instruction token `tokChose1` (THE FIRST INDICATOR YOU CHOSE,
src/app.py line 78) is never substituted by the replace chain — so the claim
as stated is false. -/
theorem C1_counterexample :
    2 ≤ (["a".data, "b".data] : List (List Char)).length ∧
    ¬ mustacheFree (renderPrompt "Leadership".data "Leads by example".data
      ["a".data, "b".data]) := by
  refine ⟨by decide, fun hfree => ?_⟩
  have hmid := hfree "THE FIRST INDICATOR YOU CHOSE".data
  have htok : ('{' :: '{' :: ("THE FIRST INDICATOR YOU CHOSE".data ++ [ '}', '}' ])) =
      tokChose1 := by decide
  rw [htok] at hmid
  have hpres : hasSubstr tokChose1 (renderPrompt "Leadership".data
      "Leads by example".data ["a".data, "b".data]) = true := by
    rw [renderPrompt_decomp "Leadership".data "Leads by example".data
      ["a".data, "b".data] (by decide) (by decide) (by decide)]
    exact decomp_present (by decide) _ _ _ _ _ _
  rw [hmid] at hpres
  cases hpres

/-- Claim C1 (amended): for every record with at least 2 indicators whose name,
definition and indicators contain no open brace, the rendered prompt contains
none of the six template substitution placeholders (COMPETENCY_NAME,
COMPETENCY_DEFINITION, INDICATOR_1..4); however, the two literal output-format
instruction tokens (THE FIRST/SECOND INDICATOR YOU CHOSE) always remain, so
placeholder-shaped tokens do survive rendering by design. -/
theorem C1_amended (name theme : List Char) (inds : List (List Char))
    (h2 : 2 ≤ inds.length) (hn : '{' ∉ name) (ht : '{' ∉ theme)
    (hi : ∀ s ∈ inds, '{' ∉ s) :
    (hasSubstr tokName (renderPrompt name theme inds) = false ∧
     hasSubstr tokDef (renderPrompt name theme inds) = false ∧
     hasSubstr tokInd1 (renderPrompt name theme inds) = false ∧
     hasSubstr tokInd2 (renderPrompt name theme inds) = false ∧
     hasSubstr tokInd3 (renderPrompt name theme inds) = false ∧
     hasSubstr tokInd4 (renderPrompt name theme inds) = false) ∧
    hasSubstr tokChose1 (renderPrompt name theme inds) = true ∧
    hasSubstr tokChose2 (renderPrompt name theme inds) = true := by
  rw [renderPrompt_decomp name theme inds hn ht hi]
  refine ⟨⟨?_, ?_, ?_, ?_, ?_, ?_⟩, ?_, ?_⟩
  · exact decomp_absent tokName_hd (by decide) (by decide) name theme _ _ _ _ hn ht
      (padIndicators_brace_free hi 0) (padIndicators_brace_free hi 1)
      (padIndicators_brace_free hi 2) (padIndicators_brace_free hi 3)
  · exact decomp_absent tokDef_hd (by decide) (by decide) name theme _ _ _ _ hn ht
      (padIndicators_brace_free hi 0) (padIndicators_brace_free hi 1)
      (padIndicators_brace_free hi 2) (padIndicators_brace_free hi 3)
  · exact decomp_absent tokInd1_hd (by decide) (by decide) name theme _ _ _ _ hn ht
      (padIndicators_brace_free hi 0) (padIndicators_brace_free hi 1)
      (padIndicators_brace_free hi 2) (padIndicators_brace_free hi 3)
  · exact decomp_absent tokInd2_hd (by decide) (by decide) name theme _ _ _ _ hn ht
      (padIndicators_brace_free hi 0) (padIndicators_brace_free hi 1)
      (padIndicators_brace_free hi 2) (padIndicators_brace_free hi 3)
  · exact decomp_absent tokInd3_hd (by decide) (by decide) name theme _ _ _ _ hn ht
      (padIndicators_brace_free hi 0) (padIndicators_brace_free hi 1)
      (padIndicators_brace_free hi 2) (padIndicators_brace_free hi 3)
  · exact decomp_absent tokInd4_hd (by decide) (by decide) name theme _ _ _ _ hn ht
      (padIndicators_brace_free hi 0) (padIndicators_brace_free hi 1)
      (padIndicators_brace_free hi 2) (padIndicators_brace_free hi 3)
  · exact decomp_present (by decide) _ _ _ _ _ _
  · exact decomp_present (by decide) _ _ _ _ _ _

/-- Claim C1 witness at a concrete record. -/
theorem C1_witness :
    (2 ≤ (["a".data, "b".data] : List (List Char)).length ∧
      '{' ∉ "Leadership".data ∧ '{' ∉ "Leads by example".data) ∧
    ((hasSubstr tokName (renderPrompt "Leadership".data "Leads by example".data
        ["a".data, "b".data]) = false ∧
      hasSubstr tokDef (renderPrompt "Leadership".data "Leads by example".data
        ["a".data, "b".data]) = false ∧
      hasSubstr tokInd1 (renderPrompt "Leadership".data "Leads by example".data
        ["a".data, "b".data]) = false ∧
      hasSubstr tokInd2 (renderPrompt "Leadership".data "Leads by example".data
        ["a".data, "b".data]) = false ∧
      hasSubstr tokInd3 (renderPrompt "Leadership".data "Leads by example".data
        ["a".data, "b".data]) = false ∧
      hasSubstr tokInd4 (renderPrompt "Leadership".data "Leads by example".data
        ["a".data, "b".data]) = false) ∧
     hasSubstr tokChose1 (renderPrompt "Leadership".data "Leads by example".data
        ["a".data, "b".data]) = true ∧
     hasSubstr tokChose2 (renderPrompt "Leadership".data "Leads by example".data
        ["a".data, "b".data]) = true) :=
  ⟨⟨by decide, by decide, by decide⟩,
    C1_amended "Leadership".data "Leads by example".data ["a".data, "b".data]
      (by decide) (by decide) (by decide) (by decide)⟩

end SJT
